import Mathlib

/-!
Verification of the gh-simili issue-intelligence pipeline.

This file shallowly embeds the Go sources of the repository: pure helper
functions become Lean functions, stateful steps become explicit state
passing over a pipeline context, external calls are supplied by an
environment record, and float64 scores are modelled as exact rationals.
Definitions are transcribed from the Go sources; definitions whose names
end in `Spec` are transcribed from the natural-language specification
instead, for refinement comparisons.
-/

set_option maxRecDepth 16384

namespace Simili

/-! ## String helpers (Go strings package, ASCII case model) -/

/-- Model of Go strings.ToLower (ASCII case folding; written on the
character list so that it reduces inside the kernel). -/
def strToLower (s : String) : String := String.mk (s.data.map Char.toLower)

/-- Substring containment on character lists, mirroring Go strings.Contains. -/
def listContains (hay needle : List Char) : Bool :=
  if needle.isPrefixOf hay then true
  else
    match hay with
    | [] => false
    | _ :: t => listContains t needle

/-- Model of Go strings.Contains. -/
def strContains (hay needle : String) : Bool := listContains hay.data needle.data

/-- Model of Go strings.EqualFold (ASCII case folding). -/
def equalFold (a b : String) : Bool := strToLower a == strToLower b

/-- Model of the containsAny helper in internal/triage/quality.go and of
containsAny in internal/transfer/rules.go after lowering. -/
def containsAnyList (text : String) (keywords : List String) : Bool :=
  keywords.any (fun kw => strContains text kw)

/-! ## Data model (pkg/models/issue.go); timestamps are Unix seconds. -/

/-- Model of models.Issue. -/
structure Issue where
  org : String
  repo : String
  number : Int
  title : String
  body : String
  state : String
  labels : List String
  author : String
  url : String
  createdAt : Int
  updatedAt : Int
  deriving Repr, DecidableEq

/-! ## Reactions (internal/github/reactions.go) -/

/-- Model of github.Reaction. -/
structure Reaction where
  content : String
  user : String
  deriving Repr, DecidableEq

/-- Model of Client.CheckReactionDecision: the pure decision over the fetched
reaction list. -/
def checkReactionDecision (reactions : List Reaction)
    (approveReaction cancelReaction : String) : String :=
  let hasApprove := reactions.any (fun r => r.content == approveReaction)
  let hasCancel := reactions.any (fun r => r.content == cancelReaction)
  if hasCancel then "cancel"
  else if hasApprove then "approve"
  else "none"

/-! ## Vector search results (internal/vectordb/collection.go) -/

/-- Model of vectordb.SearchResult; the score is the (possibly adjusted)
similarity score. -/
structure SearchResult where
  issue : Issue
  score : ℚ
  deriving Repr, DecidableEq

/-! ## Duplicate checker (internal/triage/duplicate.go) -/

/-- Model of triage.DuplicateResult. -/
structure DuplicateResult where
  isDuplicate : Bool
  similarity : ℚ
  original : Option Issue
  shouldClose : Bool
  deriving Repr, DecidableEq

/-- One step of the best-match scan in DuplicateChecker.Check: keep the
current best unless the candidate satisfies the predicate and strictly
beats it. -/
def bestStep (p : SearchResult → Bool) (best : Option SearchResult)
    (r : SearchResult) : Option SearchResult :=
  if p r && (match best with | none => true | some b => decide (r.score > b.score)) then
    some r
  else best

/-- The best-match scan of DuplicateChecker.Check over a whole list. -/
def bestBy (p : SearchResult → Bool) (l : List SearchResult) : Option SearchResult :=
  l.foldl (bestStep p) none

/-- Model of DuplicateChecker.Check. -/
def duplicateCheck (autoCloseThreshold : ℚ) (requireConfirm : Bool)
    (similarIssues : List SearchResult) : DuplicateResult :=
  if similarIssues.isEmpty then
    { isDuplicate := false, similarity := 0, original := none, shouldClose := false }
  else
    let bestOpen := bestBy (fun r => r.issue.state == "open") similarIssues
    let best := match bestOpen with
      | some b => some b
      | none => bestBy (fun _ => true) similarIssues
    match best with
    | none =>
        { isDuplicate := false, similarity := 0, original := none, shouldClose := false }
    | some b =>
        let isDup := decide (b.score ≥ autoCloseThreshold)
        { isDuplicate := isDup
          similarity := b.score
          original := some b.issue
          shouldClose := isDup && !requireConfirm }

/-! ## Quality checker (internal/triage/quality.go) -/

/-- Model of triage.QualityResult. -/
structure QualityResult where
  score : ℚ
  missing : List String
  feedback : String
  deriving Repr, DecidableEq

/-- Keyword list signalling a bug report in basicQualityCheck. -/
def bugKeywords : List String := ["bug", "error", "crash", "broken", "not working"]

/-- Keyword list signalling reproduction steps in basicQualityCheck. -/
def reproKeywords : List String :=
  ["steps to reproduce", "reproduction", "to reproduce", "how to reproduce"]

/-- The deductions of basicQualityCheck before the final clamp, together
with the missing-item list, mirroring the statement order of the source. -/
def basicQualityRaw (issue : Issue) : ℚ × List String :=
  let score₀ : ℚ := 1
  let missing₀ : List String := []
  let bodyLen := issue.body.trim.utf8ByteSize
  let (score₁, missing₁) :=
    if bodyLen < 50 then (score₀ - 3/10, missing₀ ++ ["detailed description"])
    else (score₀, missing₀)
  let titleLen := issue.title.trim.utf8ByteSize
  let (score₂, missing₂) :=
    if titleLen < 10 then (score₁ - 2/10, missing₁ ++ ["descriptive title"])
    else (score₁, missing₁)
  let bodyLower := strToLower issue.body
  if containsAnyList bodyLower bugKeywords && !containsAnyList bodyLower reproKeywords then
    (score₂ - 2/10, missing₂ ++ ["reproduction steps"])
  else (score₂, missing₂)

/-- Model of QualityChecker.basicQualityCheck (float64 scores modelled as
exact rationals). -/
def basicQualityCheck (issue : Issue) : QualityResult :=
  let (score, missing) := basicQualityRaw issue
  { score := if score < 0 then 0 else score
    missing := missing
    feedback := "" }

/-- Model of QualityChecker.mergeResults; the Go code collects the union of
missing items through a map, whose iteration order is unspecified, so the
union is modelled as an order-deduplicated append and stated up to
membership. -/
def mergeResults (basic llm : QualityResult) : QualityResult :=
  { score := (basic.score + llm.score) / 2
    missing := (basic.missing ++ llm.missing).dedup
    feedback := llm.feedback }

/-- Model of QualityChecker.NeedsInfo. -/
def needsInfo (minScore : ℚ) (r : QualityResult) : Bool :=
  decide (r.score < minScore)

/-! ### IEEE-754 binary64 model of the basic score arithmetic

The Go scores are float64. Every value the basic check ever holds is a
dyadic rational with exponent at least -54, so an integer n here stands for
the exact value n / 2^60; the grid is fine enough that a difference of two
representable values is again on the grid, and a float64 subtraction is the
exact difference rounded back to 53 significant bits, to nearest with ties
to even. All values lie far above the subnormal range, so this rounding is
exactly the IEEE-754 binary64 behaviour of the program. -/

/-- Floor of the base-two logarithm by fuelled halving (structural recursion
so that the kernel evaluates it; 128 units of fuel cover every magnitude
appearing on the scaled-integer grid). -/
def log2Fuel : Nat → Nat → Nat
  | 0, _ => 0
  | fuel + 1, n => if n ≤ 1 then 0 else log2Fuel fuel (n / 2) + 1

/-- Round a positive integer to 53 significant bits, to nearest with ties to
even: binary64 significand rounding for a positive value n / 2^60. -/
def round53 (n : Nat) : Nat :=
  let b := log2Fuel 128 n
  if b ≤ 52 then n
  else
    let drop := b - 52
    let p := 2 ^ drop
    let q := n / p
    let r := n % p
    let half := p / 2
    if half < r ∨ (r = half ∧ q % 2 = 1) then (q + 1) * p else q * p

/-- binary64 subtraction on the scaled-integer grid: the exact difference,
which is always on the grid, rounded to nearest with ties to even. -/
def fsub (a b : Int) : Int :=
  let d := a - b
  if d < 0 then -(round53 (-d).toNat : Int) else (round53 d.toNat : Int)

/-- The binary64 value of the Go literal 1.0, scaled by 2^60. -/
def lit1 : Int := 2 ^ 60

/-- The binary64 value of the Go literal 0.3, scaled by 2^60: the nearest
double to 3/10 is 5404319552844595 * 2^-54 (lit03_nearest proves it). -/
def lit03 : Int := 5404319552844595 * 2 ^ 6

/-- The binary64 value of the Go literal 0.2, scaled by 2^60: the nearest
double to 2/10 is 3602879701896397 * 2^-54 (lit02_nearest proves it). -/
def lit02 : Int := 3602879701896397 * 2 ^ 6

/-- The float64 score left by the three deduction branches of
basicQualityCheck, as a function of which branches fire, in the statement
order of the source: body too short, then title too short, then bug words
without reproduction words. -/
def floatScoreOf (b₁ b₂ b₃ : Bool) : Int :=
  let s₁ := if b₁ then fsub lit1 lit03 else lit1
  let s₂ := if b₂ then fsub s₁ lit02 else s₁
  if b₃ then fsub s₂ lit02 else s₂

/-- The deductions of QualityChecker.basicQualityCheck in the program's own
float64 arithmetic, before the final clamp, with the missing-item list;
same conditions and statement order as basicQualityRaw, the exact-rational
idealization. -/
def basicQualityFloatRaw (issue : Issue) : Int × List String :=
  let score₀ : Int := lit1
  let missing₀ : List String := []
  let bodyLen := issue.body.trim.utf8ByteSize
  let (score₁, missing₁) :=
    if bodyLen < 50 then (fsub score₀ lit03, missing₀ ++ ["detailed description"])
    else (score₀, missing₀)
  let titleLen := issue.title.trim.utf8ByteSize
  let (score₂, missing₂) :=
    if titleLen < 10 then (fsub score₁ lit02, missing₁ ++ ["descriptive title"])
    else (score₁, missing₁)
  let bodyLower := strToLower issue.body
  if containsAnyList bodyLower bugKeywords && !containsAnyList bodyLower reproKeywords then
    (fsub score₂ lit02, missing₂ ++ ["reproduction steps"])
  else (score₂, missing₂)

/-- Model of QualityChecker.basicQualityCheck in float64 arithmetic: the raw
deduction chain followed by the clamp-to-zero branch of the source. -/
def basicQualityFloat (issue : Issue) : Int × List String :=
  let (score, missing) := basicQualityFloatRaw issue
  (if score < 0 then 0 else score, missing)

/-! ## Transfer rule matcher (internal/transfer/rules.go) -/

/-- Model of config.MatchCondition. -/
structure MatchCondition where
  labels : List String
  titleContains : List String
  bodyContains : List String
  author : String
  deriving Repr, DecidableEq

/-- Model of config.TransferRule; the Go field `Match` is called `matchCond`
because `match` is a Lean keyword. -/
structure TransferRule where
  matchCond : MatchCondition
  target : String
  priority : Int
  deriving Repr, DecidableEq

/-- Model of RuleMatcher.matchesAnyLabel. -/
def matchesAnyLabel (issueLabels ruleLabels : List String) : Bool :=
  issueLabels.any (fun il => ruleLabels.any (fun rl => equalFold il rl))

/-- Model of RuleMatcher.containsAny: case-insensitive substring test against
any of the rule values. -/
def ruleContainsAny (text : String) (substrings : List String) : Bool :=
  let lowerText := strToLower text
  substrings.any (fun sub => strContains lowerText (strToLower sub))

/-- Model of RuleMatcher.matchesRule: each present condition group counts one
condition, and the rule matches when every counted condition matched. -/
def matchesRule (issue : Issue) (rule : TransferRule) : Bool :=
  let cond := rule.matchCond
  let condCount :=
    (if !cond.labels.isEmpty then 1 else 0) +
    (if !cond.titleContains.isEmpty then 1 else 0) +
    (if !cond.bodyContains.isEmpty then 1 else 0) +
    (if cond.author != "" then 1 else 0)
  let matchCount :=
    (if !cond.labels.isEmpty && matchesAnyLabel issue.labels cond.labels then 1 else 0) +
    (if !cond.titleContains.isEmpty && ruleContainsAny issue.title cond.titleContains then 1 else 0) +
    (if !cond.bodyContains.isEmpty && ruleContainsAny issue.body cond.bodyContains then 1 else 0) +
    (if cond.author != "" && equalFold issue.author cond.author then 1 else 0)
  decide (condCount > 0) && condCount == matchCount

/-- Specification-side reading of rule matching: a rule matches iff it has at
least one condition group and all present groups are satisfied; labels by
case-insensitive membership of any value, text groups by case-insensitive
containment of any value, author by case-insensitive equality. -/
def matchesRuleSpec (issue : Issue) (rule : TransferRule) : Bool :=
  let cond := rule.matchCond
  let hasAnyCondition :=
    !cond.labels.isEmpty || !cond.titleContains.isEmpty ||
    !cond.bodyContains.isEmpty || cond.author != ""
  hasAnyCondition &&
    (cond.labels.isEmpty || matchesAnyLabel issue.labels cond.labels) &&
    (cond.titleContains.isEmpty || ruleContainsAny issue.title cond.titleContains) &&
    (cond.bodyContains.isEmpty || ruleContainsAny issue.body cond.bodyContains) &&
    (cond.author == "" || equalFold issue.author cond.author)

/-- One insertion of the concrete priority sort used by the executable
pipeline model below. Go's NewRuleMatcher sorts with sort.Slice, which is
documented as not stable: it guarantees only some permutation ordered by
the strict priority comparison. The insertion sort here fixes one such
permutation so that pipeline runs stay executable; the rule-matcher claim
itself is stated over sortSliceSpec, the contract, and never relies on the
order this concrete sort gives equal-priority rules. -/
def insertByPriority (sorted : List TransferRule) (r : TransferRule) : List TransferRule :=
  match sorted with
  | [] => [r]
  | x :: xs => if x.priority ≤ r.priority then x :: insertByPriority xs r else r :: x :: xs

/-- Sorted rule list as built by NewRuleMatcher. -/
def sortRules (rules : List TransferRule) : List TransferRule :=
  rules.foldl insertByPriority []

/-- Model of RuleMatcher.Match: the first matching rule of the
priority-sorted list. -/
def ruleMatch (rules : List TransferRule) (issue : Issue) : Option TransferRule :=
  (sortRules rules).find? (fun r => matchesRule issue r)

/-- One step of the specification-side pick: keep the earlier candidate
unless the new rule matches with strictly smaller priority. -/
def rulePickStep (issue : Issue) (best : Option TransferRule) (r : TransferRule) :
    Option TransferRule :=
  match best with
  | none => if matchesRule issue r then some r else none
  | some b => if matchesRule issue r && decide (r.priority < b.priority) then some r else some b

/-- Specification-side pick, modelled from the spec: the matching rule of
minimum priority, ties broken by input order (the scan keeps the earliest
rule and replaces it only on strictly smaller priority). -/
def rulePickSpec (rules : List TransferRule) (issue : Issue) : Option TransferRule :=
  rules.foldl (rulePickStep issue) none

/-- The contract of the sort.Slice call in NewRuleMatcher, as the Go sort
package documents it: the stored rule list is some permutation of the input
rules ordered by priority. sort.Slice is explicitly not guaranteed to be
stable, so nothing more is known about the relative order of equal-priority
rules. -/
def sortSliceSpec (rules sorted : List TransferRule) : Prop :=
  List.Perm sorted rules ∧
  List.Pairwise (fun a b => a.priority ≤ b.priority) sorted

/-- Model of RuleMatcher.Match over the stored rule order: the first rule of
the stored (sorted) list that matches the issue. -/
def ruleMatchOn (sorted : List TransferRule) (issue : Issue) : Option TransferRule :=
  sorted.find? (fun r => matchesRule issue r)

/-! ## Vector store search (internal/vectordb/collection.go, Client.Search) -/

/-- The kNN request assembled by Client.Search: an over-fetch of twice the
requested limit at the given score floor. -/
structure QdrantQuery where
  collectionName : String
  limit : Nat
  scoreThreshold : ℚ
  deriving Repr, DecidableEq

/-- Model of the QueryPoints request built inside Client.Search. -/
def searchRequest (collection : String) (limit : Nat) (threshold : ℚ) : QdrantQuery :=
  { collectionName := collection, limit := limit * 2, scoreThreshold := threshold }

/-- A point returned by the store, already decoded through payloadToIssue. -/
structure ScoredPoint where
  issue : Issue
  score : ℚ
  deriving Repr, DecidableEq

/-- The closed-issue weight adjustment of Client.Search: multiply the score
by the weight exactly when the payload state is closed and the weight is
positive. -/
def adjustScore (closedWeight : ℚ) (p : ScoredPoint) : SearchResult :=
  { issue := p.issue
    score :=
      if p.issue.state == "closed" && decide (closedWeight > 0) then p.score * closedWeight
      else p.score }

/-- Descending insertion by adjusted score, modelling the re-sort of
Client.Search (sort.Slice with a strict greater-than comparison; stable for
the short fetched lists, so ties keep fetch order). -/
def insertDescByScore (sorted : List SearchResult) (r : SearchResult) : List SearchResult :=
  match sorted with
  | [] => [r]
  | x :: xs => if x.score ≥ r.score then x :: insertDescByScore xs r else r :: x :: xs

/-- The full descending re-sort of Client.Search. -/
def sortDescByScore (l : List SearchResult) : List SearchResult :=
  l.foldl insertDescByScore []

/-- The result post-processing of Client.Search on the fetched points:
adjust, re-sort descending, trim to the requested limit. -/
def searchPostprocess (points : List ScoredPoint) (limit : Nat) (closedWeight : ℚ) :
    List SearchResult :=
  (sortDescByScore (points.map (adjustScore closedWeight))).take limit

/-! ## Deterministic issue identity (pkg/models/issue.go, IssueUUID)

The Go code calls uuid.NewSHA1 of the google/uuid dependency: the SHA-1
name-based UUID of RFC 4122 (version 5) with the URL namespace. The
dependency is embedded here from its documented construction: hash the
namespace bytes followed by the name bytes, keep the first 16 bytes, force
the version and variant bits, and render as lowercase hex with hyphens. -/

/-- UTF-8 encoding of one character (Go strings are UTF-8 byte sequences). -/
def utf8Bytes (c : Char) : List Nat :=
  let n := c.toNat
  if n < 0x80 then [n]
  else if n < 0x800 then [0xC0 + n / 64, 0x80 + n % 64]
  else if n < 0x10000 then [0xE0 + n / 4096, 0x80 + n / 64 % 64, 0x80 + n % 64]
  else [0xF0 + n / 262144, 0x80 + n / 4096 % 64, 0x80 + n / 64 % 64, 0x80 + n % 64]

/-- The UTF-8 bytes of a string. -/
def strBytes (s : String) : List Nat := s.data.flatMap utf8Bytes

/-- Rotate a 32-bit word left by n bits. -/
def rotl32 (n x : Nat) : Nat := ((x <<< n) ||| (x >>> (32 - n))) % 2 ^ 32

/-- Big-endian bytes of a 32-bit word. -/
def be32 (n : Nat) : List Nat :=
  [n / 2 ^ 24 % 256, n / 2 ^ 16 % 256, n / 2 ^ 8 % 256, n % 256]

/-- Big-endian bytes of a 64-bit length field. -/
def be64 (n : Nat) : List Nat :=
  [n / 2 ^ 56 % 256, n / 2 ^ 48 % 256, n / 2 ^ 40 % 256, n / 2 ^ 32 % 256,
   n / 2 ^ 24 % 256, n / 2 ^ 16 % 256, n / 2 ^ 8 % 256, n % 256]

/-- SHA-1 message padding: a 0x80 byte, zeros to 56 mod 64, and the bit
length as a 64-bit big-endian integer. -/
def sha1Pad (msg : List Nat) : List Nat :=
  let padZeros := (119 - msg.length % 64) % 64
  msg ++ [0x80] ++ List.replicate padZeros 0 ++ be64 (msg.length * 8)

/-- Split a byte list into 64-byte chunks (structural recursion on a fuel
bound so that the definition reduces inside the kernel). -/
def chunks64Go : Nat → List Nat → List (List Nat)
  | 0, _ => []
  | _, [] => []
  | fuel + 1, l => l.take 64 :: chunks64Go fuel (l.drop 64)

/-- Split a byte list into 64-byte chunks. -/
def chunks64 (l : List Nat) : List (List Nat) := chunks64Go l.length l

/-- Group bytes into big-endian 32-bit words. -/
def wordsOfBytes : List Nat → List Nat
  | b0 :: b1 :: b2 :: b3 :: rest =>
      (b0 * 2 ^ 24 + b1 * 2 ^ 16 + b2 * 2 ^ 8 + b3) :: wordsOfBytes rest
  | _ => []

/-- Extend the 16 chunk words to the 80 schedule words of SHA-1. -/
def sha1Schedule (w16 : List Nat) : List Nat :=
  (List.range 64).foldl
    (fun w _ =>
      let t := ((w.getD (w.length - 3) 0) ^^^ (w.getD (w.length - 8) 0)) ^^^
        ((w.getD (w.length - 14) 0) ^^^ (w.getD (w.length - 16) 0))
      w ++ [rotl32 1 t])
    w16

/-- One SHA-1 round on the five-word working state. -/
def sha1Round (w : List Nat) (st : Nat × Nat × Nat × Nat × Nat) (i : Nat) :
    Nat × Nat × Nat × Nat × Nat :=
  let (a, b, c, d, e) := st
  let f :=
    if i < 20 then (b &&& c) ||| ((b ^^^ 0xFFFFFFFF) &&& d)
    else if i < 40 then (b ^^^ c) ^^^ d
    else if i < 60 then ((b &&& c) ||| (b &&& d)) ||| (c &&& d)
    else (b ^^^ c) ^^^ d
  let k :=
    if i < 20 then 0x5A827999
    else if i < 40 then 0x6ED9EBA1
    else if i < 60 then 0x8F1BBCDC
    else 0xCA62C1D6
  let temp := (rotl32 5 a + f + e + k + w.getD i 0) % 2 ^ 32
  (temp, a, rotl32 30 b, c, d)

/-- Process one 64-byte chunk. -/
def sha1Chunk (h : Nat × Nat × Nat × Nat × Nat) (chunk : List Nat) :
    Nat × Nat × Nat × Nat × Nat :=
  let w := sha1Schedule (wordsOfBytes chunk)
  let (h0, h1, h2, h3, h4) := h
  let (a, b, c, d, e) := (List.range 80).foldl (sha1Round w) (h0, h1, h2, h3, h4)
  ((h0 + a) % 2 ^ 32, (h1 + b) % 2 ^ 32, (h2 + c) % 2 ^ 32,
   (h3 + d) % 2 ^ 32, (h4 + e) % 2 ^ 32)

/-- SHA-1 digest (20 bytes) of a byte list. -/
def sha1 (msg : List Nat) : List Nat :=
  let st := (chunks64 (sha1Pad msg)).foldl sha1Chunk
    (0x67452301, 0xEFCDAB89, 0x98BADCFE, 0x10325476, 0xC3D2E1F0)
  let (h0, h1, h2, h3, h4) := st
  be32 h0 ++ be32 h1 ++ be32 h2 ++ be32 h3 ++ be32 h4

/-- The bytes of the RFC 4122 URL namespace UUID
6ba7b811-9dad-11d1-80b4-00c04fd430c8. -/
def nameSpaceURLBytes : List Nat :=
  [0x6b, 0xa7, 0xb8, 0x11, 0x9d, 0xad, 0x11, 0xd1,
   0x80, 0xb4, 0x00, 0xc0, 0x4f, 0xd4, 0x30, 0xc8]

/-- Force the version-5 and RFC 4122 variant bits of a 16-byte UUID, like
uuid.NewSHA1 does: byte 6 gets high nibble 0x5, byte 8 gets its two top
bits set to 10. -/
def setVersion5Variant (u : List Nat) : List Nat :=
  let u6 := u.set 6 (u.getD 6 0 % 16 + 0x50)
  u6.set 8 (u6.getD 8 0 % 64 + 0x80)

/-- Model of uuid.NewSHA1: SHA-1 of namespace plus name, truncated to 16
bytes, with version and variant forced. -/
def uuidNewSHA1 (space data : List Nat) : List Nat :=
  setVersion5Variant ((sha1 (space ++ data)).take 16)

/-- Lowercase hex digit of a value below 16. -/
def hexDigitChar (n : Nat) : Char :=
  if n < 10 then Char.ofNat (48 + n) else Char.ofNat (87 + n)

/-- Two lowercase hex characters of one byte. -/
def byteHexChars (b : Nat) : List Char := [hexDigitChar (b / 16 % 16), hexDigitChar (b % 16)]

/-- Lowercase hex characters of a byte list. -/
def hexChars (bs : List Nat) : List Char := bs.flatMap byteHexChars

/-- Model of uuid.UUID.String: lowercase hex in the 8-4-4-4-12 layout. -/
def uuidStringOfBytes (u : List Nat) : String :=
  ⟨hexChars (u.take 4) ++ ('-' :: hexChars ((u.drop 4).take 2)) ++
    ('-' :: hexChars ((u.drop 6).take 2)) ++ ('-' :: hexChars ((u.drop 8).take 2)) ++
    ('-' :: hexChars (u.drop 10))⟩

/-- Model of models.IssueUUID. -/
def IssueUUID (org repo : String) (number : Int) : String :=
  let data := org ++ "/" ++ repo ++ "#" ++ toString number
  uuidStringOfBytes (uuidNewSHA1 nameSpaceURLBytes (strBytes data))

/-- Specification-side issue identity, following the spec words: the UUIDv5
under the URL namespace of the name built from org, repo and number,
rendered in lowercase hex form. -/
def issueUUIDSpec (org repo : String) (number : Int) : String :=
  uuidStringOfBytes
    (uuidNewSHA1 nameSpaceURLBytes (strBytes (org ++ "/" ++ repo ++ "#" ++ toString number)))

/-! ## Pending actions and scheduling (internal/pending/manager.go,
internal/transfer/executor.go) -/

/-- Model of pending.PendingAction; timestamps are Unix seconds. -/
structure PendingAction where
  type : String
  org : String
  repo : String
  issueNumber : Int
  target : String
  commentID : Int
  scheduledAt : Int
  expiresAt : Int
  deriving Repr, DecidableEq

/-- JSON rendering of a pending action in the field order of the Go struct;
timestamps are rendered as integers in this model (Go uses RFC3339 text,
which none of the claims depends on). -/
def jsonOfPendingAction (a : PendingAction) : String :=
  "\x7b\"type\":\"" ++ a.type ++ "\",\"org\":\"" ++ a.org ++ "\",\"repo\":\"" ++ a.repo ++
  "\",\"issue_number\":" ++ toString a.issueNumber ++ ",\"target\":\"" ++ a.target ++
  "\",\"comment_id\":" ++ toString a.commentID ++ ",\"scheduled_at\":" ++
  toString a.scheduledAt ++ ",\"expires_at\":" ++ toString a.expiresAt ++ "\x7d"

/-- Model of pending.FormatPendingActionMetadata. -/
def formatPendingActionMetadata (a : PendingAction) : String :=
  "<!-- simili-pending-action: " ++ jsonOfPendingAction a ++ " -->"

/-- Model of transfer.formatMatchDescription. -/
def formatMatchDescription (rule : Option TransferRule) : String :=
  match rule with
  | none => "routing rules"
  | some r =>
    let parts :=
      (if !r.matchCond.labels.isEmpty then
        ["`labels: [" ++ String.intercalate ", " r.matchCond.labels ++ "]`"] else []) ++
      (if !r.matchCond.titleContains.isEmpty then
        ["`title_contains: [" ++ String.intercalate ", " r.matchCond.titleContains ++ "]`"] else []) ++
      (if !r.matchCond.bodyContains.isEmpty then
        ["`body_contains: [" ++ String.intercalate ", " r.matchCond.bodyContains ++ "]`"] else []) ++
      (if r.matchCond.author != "" then ["`author: " ++ r.matchCond.author ++ "`"] else [])
    if parts.isEmpty then "routing rules" else String.intercalate " + " parts

/-- Delayed-actions settings (config.DelayedActionsConfig). -/
structure DelayedActionsConfig where
  enabled : Bool
  delayHours : Int
  approveReaction : String
  cancelReaction : String
  executeOnApprove : Bool
  optimisticTransfers : Bool
  deriving Repr, DecidableEq

/-- The part of the delayed-transfer warning comment before the metadata
sentinel. -/
def delayedTransferCommentHead (targetRepo : String) (rule : Option TransferRule)
    (expiresAt : Int) (cfg : DelayedActionsConfig) : String :=
  "⚠️ **This issue will be transferred to " ++ targetRepo ++ " in " ++
  toString cfg.delayHours ++ " hours**\n\n**Matched rule:** " ++
  formatMatchDescription rule ++ "\n\n**React to this comment:**\n- 👍 (" ++
  cfg.approveReaction ++ ") to approve and proceed with this transfer\n- 👎 (" ++
  cfg.cancelReaction ++ ") to cancel this transfer\n\n**Deadline**: " ++
  toString expiresAt ++
  "\n\nIf no reaction is provided, the transfer will proceed automatically.\n\n"

/-- The part of the delayed-transfer warning comment after the metadata
sentinel. -/
def delayedTransferCommentTail : String :=
  "\n\n---\n<sub>🤖 Powered by [Simili](https://github.com/Kavirubc/gh-simili)</sub>"

/-- Model of transfer.formatDelayedTransferComment: the warning comment whose
body carries the pending-action metadata sentinel before the footer. -/
def formatDelayedTransferComment (targetRepo : String) (rule : Option TransferRule)
    (expiresAt : Int) (cfg : DelayedActionsConfig) (action : PendingAction) : String :=
  delayedTransferCommentHead targetRepo rule expiresAt cfg ++
  formatPendingActionMetadata action ++ delayedTransferCommentTail

/-- The side-effecting host calls issued by the scheduling code paths. -/
inductive HostCommand where
  | postComment (body : String)
  | addLabel (label : String)
  deriving Repr, DecidableEq

/-- The durable per-issue state held by the issue host: current labels and
the bodies of existing comments. The scheduling code receives it so that
its (non-)use of that state is part of the embedding. -/
structure HostState where
  labels : List String
  comments : List String
  deriving Repr, DecidableEq

/-- The pending-transfer label constant of internal/pending/manager.go. -/
def labelPendingTransfer : String := "pending-transfer"

/-- The pending-close label constant of internal/pending/manager.go. -/
def labelPendingClose : String := "pending-close"

/-- Whether the host state already carries the pending-transfer label. -/
def hostHasPendingTransferLabel (h : HostState) : Bool :=
  h.labels.contains labelPendingTransfer

/-- Whether the host state already carries a transfer marker comment. -/
def hostHasTransferMarker (h : HostState) : Bool :=
  h.comments.any (fun c =>
    strContains c "<!-- simili-pending-action:" && strContains c "\"type\":\"transfer\"")

/-- Model of pending.Manager.ScheduleTransfer: the commands it issues against
the host, given the current host state. The Go method only adds the label;
it inspects nothing. -/
def managerScheduleTransfer (_host : HostState) (_issue : Issue) (_targetRepo : String)
    (_commentID _delayHours : Int) : List HostCommand :=
  [HostCommand.addLabel labelPendingTransfer]

/-- Model of pending.Manager.ScheduleClose: likewise, only adds the label. -/
def managerScheduleClose (_host : HostState) (_issue : Issue) (_originalIssueURL : String)
    (_commentID _delayHours : Int) : List HostCommand :=
  [HostCommand.addLabel labelPendingClose]

/-- Model of transfer.Executor.ScheduleTransfer (non-dry-run path): build the
pending action, post the warning marker comment, then add the pending
label via the manager. No host state is read before scheduling. -/
def executorScheduleTransfer (host : HostState) (issue : Issue) (targetRepo : String)
    (rule : Option TransferRule) (cfg : DelayedActionsConfig) (dryRun : Bool) (now : Int) :
    List HostCommand :=
  if dryRun then []
  else
    let expiresAt := now + cfg.delayHours * 3600
    let action : PendingAction :=
      { type := "transfer", org := issue.org, repo := issue.repo,
        issueNumber := issue.number, target := targetRepo, commentID := 0,
        scheduledAt := now, expiresAt := expiresAt }
    let comment := formatDelayedTransferComment targetRepo rule expiresAt cfg action
    HostCommand.postComment comment ::
      managerScheduleTransfer host issue targetRepo 0 cfg.delayHours

/-! ## Configuration (internal/config) -/

/-- Classifier settings (config.ClassifierConfig, the fields the pipeline
reads). -/
structure ClassifierConfig where
  enabled : Bool
  minConfidence : ℚ
  deriving Repr, DecidableEq

/-- Quality settings (config.QualityConfig). -/
structure QualityConfig where
  enabled : Bool
  minScore : ℚ
  needsInfoLabel : String
  deriving Repr, DecidableEq

/-- Duplicate settings (config.DuplicateConfig). -/
structure DuplicateConfig where
  enabled : Bool
  autoCloseThreshold : ℚ
  requireConfirm : Bool
  deriving Repr, DecidableEq

/-- Triage settings (config.TriageConfig). -/
structure TriageConfig where
  enabled : Bool
  classifier : ClassifierConfig
  quality : QualityConfig
  duplicate : DuplicateConfig
  deriving Repr, DecidableEq

/-- Defaults (config.DefaultsConfig, the fields the pipeline reads). -/
structure DefaultsConfig where
  similarityThreshold : ℚ
  maxSimilarToShow : Nat
  closedIssueWeight : ℚ
  commentCooldownHours : Int
  delayedActions : DelayedActionsConfig
  deriving Repr, DecidableEq

/-- Per-repository configuration (config.RepositoryConfig). -/
structure RepositoryConfig where
  org : String
  repo : String
  enabled : Bool
  similarityThreshold : ℚ
  transferRules : List TransferRule
  deriving Repr, DecidableEq

/-- Application configuration (config.Config, the fields the pipeline reads). -/
structure Config where
  defaults : DefaultsConfig
  repositories : List RepositoryConfig
  triage : TriageConfig
  deriving Repr, DecidableEq

/-- Model of Config.GetRepoConfig (internal/config/validate.go). -/
def getRepoConfig (cfg : Config) (org repo : String) : Option RepositoryConfig :=
  cfg.repositories.find? (fun rc => rc.org == org && rc.repo == repo)

/-! ## Comments and cooldown (internal/github/comments.go) -/

/-- Model of github.Comment (the fields the cooldown check reads). -/
structure Comment where
  id : Int
  body : String
  createdAt : Int
  deriving Repr, DecidableEq

/-- The bot signature constant of internal/github/comments.go. -/
def botSignature : String := "gh-simili Issue Intelligence"

/-- Model of Client.ShouldSkipComment over the fetched comment list: true
when some comment carries the bot signature and was created after the
cooldown cutoff. -/
def shouldSkipComment (comments : List Comment) (now cooldownHours : Int) : Bool :=
  let cutoff := now - cooldownHours * 3600
  comments.any (fun c => strContains c.body botSignature && decide (c.createdAt > cutoff))

/-! ## Triage agent (internal/triage/agent.go) -/

/-- Model of triage.LabelResult. -/
structure LabelResult where
  label : String
  confidence : ℚ
  reason : String
  deriving Repr, DecidableEq

/-- Model of triage.Action (type plus the payload field the type uses). -/
inductive TAction where
  | addLabel (label : String) (reason : String)
  | comment (body : String) (reason : String)
  | close (reason : String)
  deriving Repr, DecidableEq

/-- Model of triage.Result. -/
structure TriageResult where
  labels : List LabelResult
  quality : Option QualityResult
  duplicate : Option DuplicateResult
  actions : List TAction
  deriving Repr, DecidableEq

/-- Model of DuplicateChecker.FormatDuplicateComment (body text abbreviated
to its discriminating head; no claim depends on the full markdown). -/
def formatDuplicateComment (result : DuplicateResult) (autoClose : Bool) : String :=
  match result.original with
  | none => ""
  | some o =>
    (if autoClose then "🔒 This issue has been automatically closed as a duplicate."
     else "⚠️ This issue appears to be a duplicate.") ++
    " Original issue: " ++ o.url

/-- Model of DuplicateChecker.GetActions. -/
def duplicateActions (result : DuplicateResult) : List TAction :=
  if !result.isDuplicate || result.original.isNone then []
  else
    [TAction.addLabel "duplicate" "similarity", TAction.comment
      (formatDuplicateComment result result.shouldClose) "notify author of duplicate"] ++
    (if result.shouldClose then [TAction.close "auto-close duplicate"] else [])

/-- Model of Agent.labelsToActions. -/
def labelsToActions (labels : List LabelResult) : List TAction :=
  labels.map (fun l => TAction.addLabel l.label l.reason)

/-- Model of Agent.qualityToActions. -/
def qualityToActions (needsInfoLabel : String) (qr : QualityResult) : List TAction :=
  [TAction.addLabel needsInfoLabel "issue needs more information"] ++
  (if qr.feedback != "" then
    [TAction.comment qr.feedback "request additional information"] else [])

/-- The clamp of parseQualityResponse on the LLM score. -/
def clampQuality (r : QualityResult) : QualityResult :=
  { r with score := if r.score < 0 then 0 else if r.score > 1 then 1 else r.score }

/-! ## Pipeline engine (internal/pipeline/core, internal/pipeline/steps) -/

/-- Observable calls made against external systems during a run. -/
inductive Ev where
  | ensureCollection
  | searchQuery
  | duplicateCheck
  | postComment
  | transferExec
  | scheduleTransfer
  | scheduleClose
  | triageExec
  | upsert
  deriving Repr, DecidableEq

/-- The environment: responses of the external collaborators consulted at
most once per opened-issue run. -/
structure Env where
  dryRun : Bool
  runActions : Bool
  now : Int
  listComments : Except String (List Comment)
  ensureCollection : Except String Unit
  findSimilar : Except String (List SearchResult)
  agentConfigured : Bool
  classifierOutput : Except String (List LabelResult)
  llmQuality : Except String QualityResult
  postCommentID : Except String Int
  transferCall : Except String Unit
  indexCall : Except String Unit

/-- Model of core.Context together with its accumulating core.UnifiedResult
(result fields prefixed `res`). -/
structure PipeCtx where
  issue : Issue
  config : Config
  similarIssues : List SearchResult
  transferTarget : String
  triageResult : Option TriageResult
  commentBody : String
  skipReason : String
  resSkipped : Bool
  resSimilarFound : List SearchResult
  resTriage : Option TriageResult
  resTransferred : Bool
  resCommentPosted : Bool
  resIndexed : Bool
  resActionsExecuted : Nat
  resPendingAction : Option PendingAction

/-- Outcome of one step: success, the graceful ErrSkipPipeline, or a failure
message. -/
inductive StepOutcome where
  | ok
  | skipPipeline
  | fail (msg : String)
  deriving Repr, DecidableEq

/-- A pipeline step as a function of context and environment. -/
def StepFn : Type := PipeCtx → Env → PipeCtx × List Ev × StepOutcome

/-- Model of RepoGatekeeper.Run: repo-enabled check, then the cooldown check
whose host failure is returned as a wrapped error. -/
def gatekeeperRun : StepFn := fun ctx env =>
  match getRepoConfig ctx.config ctx.issue.org ctx.issue.repo with
  | none =>
      ({ ctx with resSkipped := true, skipReason := "repository not enabled" }, [],
        StepOutcome.skipPipeline)
  | some rc =>
      if !rc.enabled then
        ({ ctx with resSkipped := true, skipReason := "repository not enabled" }, [],
          StepOutcome.skipPipeline)
      else
        match env.listComments with
        | Except.error e => (ctx, [], StepOutcome.fail ("failed to check cooldown: " ++ e))
        | Except.ok comments =>
            if shouldSkipComment comments env.now ctx.config.defaults.commentCooldownHours then
              ({ ctx with resSkipped := true, skipReason := "cooldown active" }, [],
                StepOutcome.skipPipeline)
            else (ctx, [], StepOutcome.ok)

/-- Model of VectorDBPrep.Run. -/
def vectordbPrepRun : StepFn := fun ctx env =>
  if env.dryRun then (ctx, [], StepOutcome.ok)
  else
    match env.ensureCollection with
    | Except.error e =>
        (ctx, [Ev.ensureCollection], StepOutcome.fail ("failed to ensure collection: " ++ e))
    | Except.ok _ => (ctx, [Ev.ensureCollection], StepOutcome.ok)

/-- Model of SimilaritySearch.Run: a no-op when a transfer target is already
set; search failures are swallowed as warnings. -/
def similaritySearchRun : StepFn := fun ctx env =>
  if ctx.transferTarget != "" then (ctx, [], StepOutcome.ok)
  else
    match env.findSimilar with
    | Except.error _ => (ctx, [Ev.searchQuery], StepOutcome.ok)
    | Except.ok similar =>
        if !similar.isEmpty then
          ({ ctx with similarIssues := similar, resSimilarFound := similar },
            [Ev.searchQuery], StepOutcome.ok)
        else (ctx, [Ev.searchQuery], StepOutcome.ok)

/-- Model of TransferCheck.Run: evaluate the repository's transfer rules and
record the target and, when delayed actions are enabled, a pending
transfer action on the result. -/
def transferCheckRun : StepFn := fun ctx env =>
  match getRepoConfig ctx.config ctx.issue.org ctx.issue.repo with
  | none => (ctx, [], StepOutcome.ok)
  | some rc =>
      if rc.transferRules.isEmpty then (ctx, [], StepOutcome.ok)
      else
        match ruleMatch rc.transferRules ctx.issue with
        | none => (ctx, [], StepOutcome.ok)
        | some r =>
            if r.target == "" then (ctx, [], StepOutcome.ok)
            else
              let ctx₁ := { ctx with transferTarget := r.target }
              if ctx.config.defaults.delayedActions.enabled then
                let expiresAt := env.now + ctx.config.defaults.delayedActions.delayHours * 3600
                let pa : PendingAction :=
                  { type := "transfer", org := ctx.issue.org, repo := ctx.issue.repo,
                    issueNumber := ctx.issue.number, target := r.target, commentID := 0,
                    scheduledAt := env.now, expiresAt := expiresAt }
                ({ ctx₁ with resPendingAction := some pa }, [], StepOutcome.ok)
              else (ctx₁, [], StepOutcome.ok)

/-- Model of QualityChecker.Check: basic result, merged with the clamped LLM
result unless the LLM call failed. -/
def qualityCheck (env : Env) (issue : Issue) : QualityResult :=
  match env.llmQuality with
  | Except.error _ => basicQualityCheck issue
  | Except.ok llmR => mergeResults (basicQualityCheck issue) (clampQuality llmR)

/-- Model of Agent.TriageWithSimilar: duplicate check first (with early
return on a should-close duplicate), then classifier, then quality. The
returned event list records the duplicate-checker invocation. -/
def triageWithSimilar (cfg : Config) (env : Env) (issue : Issue)
    (similar : List SearchResult) : TriageResult × List Ev :=
  let base : TriageResult := { labels := [], quality := none, duplicate := none, actions := [] }
  let dupStage :=
    if cfg.triage.duplicate.enabled && !similar.isEmpty then
      let d := duplicateCheck cfg.triage.duplicate.autoCloseThreshold
        cfg.triage.duplicate.requireConfirm similar
      let withDup := { base with
        duplicate := some d
        actions := if d.isDuplicate then duplicateActions d else [] }
      (withDup, [Ev.duplicateCheck], d.isDuplicate && d.shouldClose)
    else (base, [], false)
  let (r₁, evs₁, earlyReturn) := dupStage
  if earlyReturn then (r₁, evs₁)
  else
    let r₂ :=
      if cfg.triage.classifier.enabled then
        match env.classifierOutput with
        | Except.error _ => r₁
        | Except.ok labels =>
            { r₁ with labels := labels, actions := r₁.actions ++ labelsToActions labels }
      else r₁
    let r₃ :=
      if cfg.triage.quality.enabled then
        let q := qualityCheck env issue
        let withQ := { r₂ with quality := some q }
        if needsInfo cfg.triage.quality.minScore q then
          { withQ with actions := withQ.actions ++
              qualityToActions cfg.triage.quality.needsInfoLabel q }
        else withQ
      else r₂
    (r₃, evs₁)

/-- Modelled from the spec: Agent.TriageWithoutDuplicates is declared in the
TriageAgent interface and called by the triage step, but its body is not
in the sources; the spec states that when a transfer target is set, triage
runs the classifier and quality checks without duplicate detection. -/
def triageWithoutDuplicates (cfg : Config) (env : Env) (issue : Issue)
    (_similar : List SearchResult) : TriageResult × List Ev :=
  let base : TriageResult := { labels := [], quality := none, duplicate := none, actions := [] }
  let r₂ :=
    if cfg.triage.classifier.enabled then
      match env.classifierOutput with
      | Except.error _ => base
      | Except.ok labels =>
          { base with labels := labels, actions := base.actions ++ labelsToActions labels }
    else base
  let r₃ :=
    if cfg.triage.quality.enabled then
      let q := qualityCheck env issue
      let withQ := { r₂ with quality := some q }
      if needsInfo cfg.triage.quality.minScore q then
        { withQ with actions := withQ.actions ++
            qualityToActions cfg.triage.quality.needsInfoLabel q }
      else withQ
    else r₂
  (r₃, [])

/-- Model of TriageAnalysis.checkForPendingClose. -/
def checkForPendingClose (ctx : PipeCtx) (env : Env) (result : TriageResult) : PipeCtx :=
  match result.duplicate with
  | none => ctx
  | some d =>
      if d.isDuplicate && d.shouldClose && ctx.config.defaults.delayedActions.enabled &&
          ctx.resPendingAction.isNone then
        match d.original with
        | none => ctx
        | some o =>
            let expiresAt := env.now + ctx.config.defaults.delayedActions.delayHours * 3600
            let pa : PendingAction :=
              { type := "close", org := ctx.issue.org, repo := ctx.issue.repo,
                issueNumber := ctx.issue.number, target := o.url, commentID := 0,
                scheduledAt := env.now, expiresAt := expiresAt }
            { ctx with resPendingAction := some pa }
      else ctx

/-- Model of TriageAnalysis.Run: dispatch to the with- or
without-duplicates agent entry point depending on the transfer target. -/
def triageAnalysisRun : StepFn := fun ctx env =>
  if !env.agentConfigured then (ctx, [], StepOutcome.ok)
  else
    let (result, evs) :=
      if ctx.transferTarget != "" then
        triageWithoutDuplicates ctx.config env ctx.issue ctx.similarIssues
      else triageWithSimilar ctx.config env ctx.issue ctx.similarIssues
    let ctx₁ := { ctx with triageResult := some result, resTriage := some result }
    (checkForPendingClose ctx₁ env result, evs, StepOutcome.ok)

/-- Model of ResponseBuilder.Run (section text abbreviated: only the empty /
non-empty shape of the comment body feeds later steps). -/
def responseBuilderRun : StepFn := fun ctx _env =>
  let body :=
    if ctx.similarIssues.isEmpty && ctx.resTriage.isNone && ctx.transferTarget == "" then ""
    else "## 🤖 Issue Intelligence Summary"
  ({ ctx with commentBody := body }, [], StepOutcome.ok)

/-- Model of ActionExecutor.executeTransfer (the events of its three
branches: optimistic transfer, silent delayed schedule, fallback). -/
def executeTransferPart (ctx : PipeCtx) (env : Env) : PipeCtx × List Ev :=
  if ctx.config.defaults.delayedActions.enabled &&
      ctx.config.defaults.delayedActions.optimisticTransfers then
    match env.transferCall with
    | Except.error _ => (ctx, [Ev.transferExec])
    | Except.ok _ =>
        ({ ctx with resTransferred := true, resActionsExecuted := ctx.resActionsExecuted + 1 },
          [Ev.transferExec])
  else if ctx.resCommentPosted then (ctx, [Ev.scheduleTransfer])
  else
    match env.transferCall with
    | Except.error _ => (ctx, [Ev.transferExec])
    | Except.ok _ =>
        ({ ctx with resTransferred := true, resActionsExecuted := ctx.resActionsExecuted + 1 },
          [Ev.transferExec])

/-- Model of the action filter dropping comment actions. -/
def filterNonCommentActions (actions : List TAction) : List TAction :=
  actions.filter (fun a => match a with | TAction.comment _ _ => false | _ => true)

/-- Model of the action filter dropping close actions. -/
def filterCloseActions (actions : List TAction) : List TAction :=
  actions.filter (fun a => match a with | TAction.close _ => false | _ => true)

/-- Model of ActionExecutor.executeTriageRequest. -/
def executeTriagePart (ctx : PipeCtx) (tr : TriageResult) : PipeCtx × List Ev :=
  let actions := filterNonCommentActions tr.actions
  if ctx.config.defaults.delayedActions.enabled then
    let closeScheduled :=
      match tr.duplicate with
      | some d => d.isDuplicate && d.shouldClose && ctx.resCommentPosted
      | none => false
    let actions₁ := if closeScheduled then filterCloseActions actions else actions
    ({ ctx with resActionsExecuted := ctx.resActionsExecuted + actions₁.length },
      (if closeScheduled then [Ev.scheduleClose] else []) ++ [Ev.triageExec])
  else
    ({ ctx with resActionsExecuted := ctx.resActionsExecuted + actions.length },
      [Ev.triageExec])

/-- The comment-posting part of ActionExecutor.Run. -/
def postCommentPart (ctx : PipeCtx) (env : Env) : PipeCtx × List Ev :=
  if ctx.commentBody != "" then
    match env.postCommentID with
    | Except.error _ => (ctx, [Ev.postComment])
    | Except.ok _ => ({ ctx with resCommentPosted := true }, [Ev.postComment])
  else (ctx, [])

/-- The transfer part of ActionExecutor.Run. -/
def transferPart (ctx : PipeCtx) (env : Env) : PipeCtx × List Ev :=
  if ctx.transferTarget != "" then executeTransferPart ctx env else (ctx, [])

/-- The triage-action part of ActionExecutor.Run. -/
def triagePart (ctx : PipeCtx) : PipeCtx × List Ev :=
  match ctx.triageResult with
  | none => (ctx, [])
  | some tr => executeTriagePart ctx tr

/-- Model of ActionExecutor.Run. -/
def actionExecutorRun : StepFn := fun ctx env =>
  if env.dryRun || !env.runActions then (ctx, [], StepOutcome.ok)
  else
    let (ctx₁, evs₁) := postCommentPart ctx env
    let (ctx₂, evs₂) := transferPart ctx₁ env
    let (ctx₃, evs₃) := triagePart ctx₂
    (ctx₃, evs₁ ++ evs₂ ++ evs₃, StepOutcome.ok)

/-- The should-close test of Indexer.Run on the optional triage result. -/
def shouldCloseOf (tr : Option TriageResult) : Bool :=
  match tr with
  | none => false
  | some t =>
      match t.duplicate with
      | none => false
      | some d => d.shouldClose

/-- Model of Indexer.Run: skip when a transfer target is set or the issue
will be closed as duplicate, else upsert (failures are warnings). -/
def indexerRun : StepFn := fun ctx env =>
  if ctx.transferTarget != "" then (ctx, [], StepOutcome.ok)
  else if shouldCloseOf ctx.triageResult then (ctx, [], StepOutcome.ok)
  else if env.dryRun then (ctx, [], StepOutcome.ok)
  else
    match env.indexCall with
    | Except.error _ => (ctx, [Ev.upsert], StepOutcome.ok)
    | Except.ok _ => ({ ctx with resIndexed := true }, [Ev.upsert], StepOutcome.ok)

/-- The running / stopped status of a pipeline execution. -/
inductive RunOutcome where
  | running
  | stopped
  | failed (msg : String)
  deriving Repr, DecidableEq

/-- The full state of a pipeline execution: the context, the trace of
external calls, the names of the steps that ran, and the status. -/
structure RunState where
  ctx : PipeCtx
  events : List Ev
  stepsRun : List String
  outcome : RunOutcome

/-- Model of the step loop of UnifiedProcessor.ProcessIssue: run the step
when still running, freeze the state on a skip, and wrap other errors. -/
def runStep (env : Env) (s : String × StepFn) (st : RunState) : RunState :=
  match st.outcome with
  | RunOutcome.running =>
      let (ctx, evs, out) := s.2 st.ctx env
      match out with
      | StepOutcome.ok =>
          { ctx := ctx, events := st.events ++ evs, stepsRun := st.stepsRun ++ [s.1],
            outcome := RunOutcome.running }
      | StepOutcome.skipPipeline =>
          { ctx := ctx, events := st.events ++ evs, stepsRun := st.stepsRun ++ [s.1],
            outcome := RunOutcome.stopped }
      | StepOutcome.fail e =>
          { ctx := ctx, events := st.events ++ evs, stepsRun := st.stepsRun ++ [s.1],
            outcome := RunOutcome.failed ("step " ++ s.1 ++ " failed: " ++ e) }
  | _ => st

/-- The default step order of Builder.BuildDefault. -/
def pipelineSteps : List (String × StepFn) :=
  [("gatekeeper", gatekeeperRun), ("vectordb_prep", vectordbPrepRun),
   ("similarity_search", similaritySearchRun), ("transfer_check", transferCheckRun),
   ("triage", triageAnalysisRun), ("response_builder", responseBuilderRun),
   ("action_executor", actionExecutorRun), ("indexer", indexerRun)]

/-- The initial pipeline context of ProcessIssue. -/
def initCtx (cfg : Config) (issue : Issue) : PipeCtx :=
  { issue := issue, config := cfg, similarIssues := [], transferTarget := "",
    triageResult := none, commentBody := "", skipReason := "", resSkipped := false,
    resSimilarFound := [], resTriage := none, resTransferred := false,
    resCommentPosted := false, resIndexed := false, resActionsExecuted := 0,
    resPendingAction := none }

/-- Model of UnifiedProcessor.ProcessIssue over the default pipeline. -/
def runPipeline (cfg : Config) (issue : Issue) (env : Env) : RunState :=
  pipelineSteps.foldl (fun st s => runStep env s st)
    { ctx := initCtx cfg issue, events := [], stepsRun := [], outcome := RunOutcome.running }

/-! ## Concrete sample data for witnesses and counterexamples -/

/-- A closed sample issue of the acme org. -/
def sampleClosedIssue : Issue :=
  { org := "acme", repo := "web", number := 7, title := "crash on save", body := "b",
    state := "closed", labels := [], author := "alice", url := "https://h/acme/web/7",
    createdAt := 0, updatedAt := 0 }

/-- An open sample issue of the acme org. -/
def sampleOpenIssue : Issue :=
  { org := "acme", repo := "web", number := 8, title := "crash on load", body := "b",
    state := "open", labels := [], author := "bob", url := "https://h/acme/web/8",
    createdAt := 0, updatedAt := 0 }

/-- A closed search result of raw score 0.97. -/
def sampleClosedResult : SearchResult := { issue := sampleClosedIssue, score := 97/100 }

/-- An open search result of raw score 0.9. -/
def sampleOpenResult : SearchResult := { issue := sampleOpenIssue, score := 9/10 }

/-- A delayed-actions configuration with scheduling enabled. -/
def sampleDelayedCfg : DelayedActionsConfig :=
  { enabled := true, delayHours := 24, approveReaction := "+1", cancelReaction := "-1",
    executeOnApprove := true, optimisticTransfers := false }

/-- A host state on which a pending transfer is already scheduled: the
pending-transfer label is present and a transfer marker comment exists. -/
def sampleScheduledHostState : HostState :=
  { labels := ["pending-transfer"],
    comments := ["<!-- simili-pending-action: \x7b\"type\":\"transfer\",\"org\":\"acme\"\x7d -->"] }

/-- A closed fetched point of raw score 1 (ties with the open point after
adjustment by weight 0.9). -/
def tiedClosedPoint : ScoredPoint := { issue := sampleClosedIssue, score := 1 }

/-- An open fetched point of raw score 0.9. -/
def tiedOpenPoint : ScoredPoint := { issue := sampleOpenIssue, score := 9/10 }

/-- An open fetched point of raw score 0.8. -/
def rankedOpenPoint : ScoredPoint := { issue := sampleOpenIssue, score := 8/10 }

/-- The priority-1 routing rule of scenario S3: label api routes to acme/api. -/
def apiRule : TransferRule :=
  { matchCond := { labels := ["api"], titleContains := [], bodyContains := [], author := "" },
    target := "acme/api", priority := 1 }

/-- The priority-2 routing rule of scenario S3: title frontend routes to
acme/web. -/
def frontendRule : TransferRule :=
  { matchCond :=
      { labels := [], titleContains := ["frontend"], bodyContains := [], author := "" },
    target := "acme/web", priority := 2 }

/-- The scenario S3 issue: labelled api with a frontend title. -/
def intakeIssue : Issue :=
  { org := "acme", repo := "intake", number := 5, title := "frontend bug",
    body := "the api endpoint breaks the frontend", state := "open", labels := ["api"],
    author := "dev", url := "https://h/acme/intake/5", createdAt := 0, updatedAt := 0 }

/-- A transfer rule of priority 5 matching the label api, parameterized by
target so that equal-priority rules stay distinguishable. -/
def tiedRule (t : String) : TransferRule :=
  { matchCond := { labels := ["api"], titleContains := [], bodyContains := [], author := "" },
    target := t, priority := 5 }

/-- Thirteen equal-priority rules, one above Go's insertion-sort cutoff of
twelve elements past which pdqsort may reorder equal elements, all matching
the intake issue, with pairwise distinct targets. -/
def tiedRules : List TransferRule :=
  [tiedRule "t/r01", tiedRule "t/r02", tiedRule "t/r03", tiedRule "t/r04",
   tiedRule "t/r05", tiedRule "t/r06", tiedRule "t/r07", tiedRule "t/r08",
   tiedRule "t/r09", tiedRule "t/r10", tiedRule "t/r11", tiedRule "t/r12",
   tiedRule "t/r13"]

/-- An issue missing all three quality items: a three-byte body that mentions
a bug with no reproduction keywords, and a two-byte title. -/
def lowQualityIssue : Issue :=
  { org := "acme", repo := "web", number := 9, title := "hm", body := "bug",
    state := "open", labels := [], author := "dev", url := "https://h/acme/web/9",
    createdAt := 0, updatedAt := 0 }

/-- A prior bot comment created at time 900. -/
def botComment : Comment :=
  { id := 1, body := "hi there <sub>🤖 gh-simili Issue Intelligence</sub>", createdAt := 900 }

/-- Shared defaults for the concrete pipeline runs: one hour of cooldown and
delayed actions enabled. -/
def sampleDefaults : DefaultsConfig :=
  { similarityThreshold := 0, maxSimilarToShow := 5, closedIssueWeight := 1,
    commentCooldownHours := 1, delayedActions := sampleDelayedCfg }

/-- Triage settings with only the duplicate checker enabled, at an integer
threshold so that the run evaluates inside the kernel. -/
def sampleTriageCfg : TriageConfig :=
  { enabled := true,
    classifier := { enabled := false, minConfidence := 0 },
    quality := { enabled := false, minScore := 0, needsInfoLabel := "needs-info" },
    duplicate := { enabled := true, autoCloseThreshold := 95, requireConfirm := false } }

/-- A configuration with no repositories at all. -/
def noRepoCfg : Config :=
  { defaults := sampleDefaults, repositories := [], triage := sampleTriageCfg }

/-- The enabled acme/web repository entry. -/
def acmeWebRepo : RepositoryConfig :=
  { org := "acme", repo := "web", enabled := true, similarityThreshold := 0,
    transferRules := [] }

/-- A configuration with acme/web enabled and no transfer rules. -/
def enabledCfg : Config :=
  { defaults := sampleDefaults, repositories := [acmeWebRepo], triage := sampleTriageCfg }

/-- The enabled acme/intake repository entry carrying the scenario S3 rules. -/
def acmeIntakeRepo : RepositoryConfig :=
  { org := "acme", repo := "intake", enabled := true, similarityThreshold := 0,
    transferRules := [frontendRule, apiRule] }

/-- A configuration with acme/intake enabled under the scenario S3 rules. -/
def transferCfg : Config :=
  { defaults := sampleDefaults, repositories := [acmeIntakeRepo], triage := sampleTriageCfg }

/-- An environment with no prior comments and successful external calls; the
similarity search returns one closed result of integer score 97. -/
def plainEnv : Env :=
  { dryRun := false, runActions := true, now := 1000, listComments := Except.ok [],
    ensureCollection := Except.ok (), findSimilar := Except.ok
      [{ issue := sampleClosedIssue, score := 97 }],
    agentConfigured := true, classifierOutput := Except.ok [],
    llmQuality := Except.error "disabled", postCommentID := Except.ok 100,
    transferCall := Except.ok (), indexCall := Except.ok () }

/-- The same environment except that the issue already carries a fresh bot
comment. -/
def cooldownEnv : Env :=
  { plainEnv with listComments := Except.ok [botComment] }

/-- The same environment except that listing comments fails. -/
def failingEnv : Env :=
  { plainEnv with listComments := Except.error "boom" }

/-- The duplicate verdict the checker computes for the single closed result
of score 97 at threshold 95 without confirmation. -/
def sampleDupResult : DuplicateResult :=
  { isDuplicate := true, similarity := 97, original := some sampleClosedIssue,
    shouldClose := true }

/-- The triage outcome of the should-close run: the early-returned duplicate
stage. -/
def sampleTriageOutcome : TriageResult :=
  { labels := [], quality := none, duplicate := some sampleDupResult,
    actions :=
      [TAction.addLabel "duplicate" "similarity",
       TAction.comment
         "🔒 This issue has been automatically closed as a duplicate. Original issue: https://h/acme/web/7"
         "notify author of duplicate",
       TAction.close "auto-close duplicate"] }

/-! ## Helper lemmas -/

/-- The pre-clamp basic quality score in closed form. -/
lemma basicQualityRaw_eq (issue : Issue) :
    basicQualityRaw issue =
      (1 - (if issue.body.trim.utf8ByteSize < 50 then (3 : ℚ)/10 else 0)
         - (if issue.title.trim.utf8ByteSize < 10 then (2 : ℚ)/10 else 0)
         - (if containsAnyList (strToLower issue.body) bugKeywords &&
              !containsAnyList (strToLower issue.body) reproKeywords then (2 : ℚ)/10 else 0),
       (if issue.body.trim.utf8ByteSize < 50 then ["detailed description"] else []) ++
       (if issue.title.trim.utf8ByteSize < 10 then ["descriptive title"] else []) ++
       (if containsAnyList (strToLower issue.body) bugKeywords &&
            !containsAnyList (strToLower issue.body) reproKeywords then
          ["reproduction steps"] else [])) := by
  unfold basicQualityRaw
  by_cases h₁ : issue.body.trim.utf8ByteSize < 50 <;>
    by_cases h₂ : issue.title.trim.utf8ByteSize < 10 <;>
      by_cases h₃ : (containsAnyList (strToLower issue.body) bugKeywords &&
        !containsAnyList (strToLower issue.body) reproKeywords) = true <;>
    simp only [h₁, h₂, h₃, if_true, if_false, Bool.not_eq_true] at * <;>
    simp [h₁, h₂, h₃]

/-- The pre-clamp basic quality score is at least 3/10. -/
lemma basicQualityRaw_ge (issue : Issue) : (3 : ℚ)/10 ≤ (basicQualityRaw issue).1 := by
  rw [basicQualityRaw_eq]
  split_ifs <;> norm_num

/-- The pre-clamp basic quality score is at most 1. -/
lemma basicQualityRaw_le (issue : Issue) : (basicQualityRaw issue).1 ≤ 1 := by
  rw [basicQualityRaw_eq]
  split_ifs <;> norm_num

/-- The clamp in basicQualityCheck never fires. -/
lemma basicQualityCheck_eq_raw (issue : Issue) :
    basicQualityCheck issue =
      { score := (basicQualityRaw issue).1, missing := (basicQualityRaw issue).2,
        feedback := "" } := by
  unfold basicQualityCheck
  have h := basicQualityRaw_ge issue
  rcases hr : basicQualityRaw issue with ⟨s, m⟩
  rw [hr] at h
  simp only at h ⊢
  rw [if_neg (by linarith)]

/-! ## Claim theorems -/

/-- C2: the reconciliation decision over the reactions of a marker comment is
cancel when the cancel-reaction is present from any user, else approve
when the approve-reaction is present, else none; in particular cancel
strictly dominates approve when both are present. -/
theorem claim_C2_reaction_decision (reactions : List Reaction)
    (approveReaction cancelReaction : String) :
    ((∃ r ∈ reactions, r.content = cancelReaction) →
      checkReactionDecision reactions approveReaction cancelReaction = "cancel") ∧
    ((∀ r ∈ reactions, r.content ≠ cancelReaction) →
      (∃ r ∈ reactions, r.content = approveReaction) →
      checkReactionDecision reactions approveReaction cancelReaction = "approve") ∧
    ((∀ r ∈ reactions, r.content ≠ cancelReaction) →
      (∀ r ∈ reactions, r.content ≠ approveReaction) →
      checkReactionDecision reactions approveReaction cancelReaction = "none") := by
  unfold checkReactionDecision
  refine ⟨?_, ?_, ?_⟩
  · intro h
    obtain ⟨r, hr, he⟩ := h
    have : reactions.any (fun r => r.content == cancelReaction) = true := by
      simp [List.any_eq_true]
      exact ⟨r, hr, he⟩
    simp [this]
  · intro hno hyes
    obtain ⟨r, hr, he⟩ := hyes
    have h₁ : reactions.any (fun r => r.content == cancelReaction) = false := by
      simp [List.any_eq_false]
      exact hno
    have h₂ : reactions.any (fun r => r.content == approveReaction) = true := by
      simp [List.any_eq_true]
      exact ⟨r, hr, he⟩
    simp [h₁, h₂]
  · intro hnc hna
    have h₁ : reactions.any (fun r => r.content == cancelReaction) = false := by
      simp [List.any_eq_false]
      exact hnc
    have h₂ : reactions.any (fun r => r.content == approveReaction) = false := by
      simp [List.any_eq_false]
      exact hna
    simp [h₁, h₂]

/-- Witness for C2 at a concrete reaction list carrying both the approve and
the cancel reaction: the decision is cancel. -/
theorem claim_C2_witness :
    checkReactionDecision
      [{ content := "+1", user := "alice" }, { content := "-1", user := "bob" }]
      "+1" "-1" = "cancel" ∧
    checkReactionDecision [{ content := "+1", user := "alice" }] "+1" "-1" = "approve" ∧
    checkReactionDecision ([] : List Reaction) "+1" "-1" = "none" := by
  refine ⟨?_, ?_, ?_⟩
  · exact (claim_C2_reaction_decision _ "+1" "-1").1
      ⟨{ content := "-1", user := "bob" }, by simp, rfl⟩
  · exact (claim_C2_reaction_decision _ "+1" "-1").2.1 (by intro r hr; simp at hr; simp [hr])
      ⟨{ content := "+1", user := "alice" }, by simp, rfl⟩
  · exact (claim_C2_reaction_decision _ "+1" "-1").2.2 (by simp) (by simp)

/-- C9: the basic quality rule starts at 1.0 and subtracts 0.3 for a short
body, 0.2 for a short title and 0.2 for a bug report without reproduction
steps, clamped at zero; the merged result is the arithmetic mean with the
union of missing items, and needs-info fails exactly below min_score. -/
theorem claim_C9_quality (issue : Issue) (llmR : QualityResult) (minScore : ℚ) :
    (basicQualityCheck issue).score =
      1 - (if issue.body.trim.utf8ByteSize < 50 then (3 : ℚ)/10 else 0)
        - (if issue.title.trim.utf8ByteSize < 10 then (2 : ℚ)/10 else 0)
        - (if containsAnyList (strToLower issue.body) bugKeywords &&
             !containsAnyList (strToLower issue.body) reproKeywords then (2 : ℚ)/10 else 0) ∧
    0 ≤ (basicQualityCheck issue).score ∧
    (basicQualityCheck issue).missing =
      (if issue.body.trim.utf8ByteSize < 50 then ["detailed description"] else []) ++
      (if issue.title.trim.utf8ByteSize < 10 then ["descriptive title"] else []) ++
      (if containsAnyList (strToLower issue.body) bugKeywords &&
           !containsAnyList (strToLower issue.body) reproKeywords then
         ["reproduction steps"] else []) ∧
    (mergeResults (basicQualityCheck issue) llmR).score =
      ((basicQualityCheck issue).score + llmR.score) / 2 ∧
    (∀ m, m ∈ (mergeResults (basicQualityCheck issue) llmR).missing ↔
      m ∈ (basicQualityCheck issue).missing ∨ m ∈ llmR.missing) ∧
    (needsInfo minScore (mergeResults (basicQualityCheck issue) llmR) = true ↔
      (mergeResults (basicQualityCheck issue) llmR).score < minScore) := by
  refine ⟨?_, ?_, ?_, ?_, ?_, ?_⟩
  · rw [basicQualityCheck_eq_raw, basicQualityRaw_eq]
  · rw [basicQualityCheck_eq_raw]
    have := basicQualityRaw_ge issue
    simp only
    linarith
  · rw [basicQualityCheck_eq_raw, basicQualityRaw_eq]
  · rfl
  · intro m
    simp [mergeResults, List.mem_dedup]
  · simp [needsInfo]

/-- lit03 is the binary64 nearest to 3/10: strictly within half an ulp
(2^-55, which is 2^5 on the scaled grid) of 3/10, with a 53-bit
significand. -/
lemma lit03_nearest :
    (10 * lit03 - 3 * 2 ^ 60).natAbs * 2 < 10 * 2 ^ 6 ∧
    5404319552844595 < 2 ^ 53 := by decide

/-- lit02 is the binary64 nearest to 2/10: strictly within half an ulp
(2^-55, which is 2^5 on the scaled grid) of 2/10, with a 53-bit
significand. -/
lemma lit02_nearest :
    (10 * lit02 - 2 * 2 ^ 60).natAbs * 2 < 10 * 2 ^ 6 ∧
    3602879701896397 < 2 ^ 53 := by decide

/-- The pre-clamp float64 basic quality score in closed form: the value is a
function of which of the three deduction branches fire. -/
lemma basicQualityFloatRaw_eq (issue : Issue) :
    basicQualityFloatRaw issue =
      (floatScoreOf (decide (issue.body.trim.utf8ByteSize < 50))
        (decide (issue.title.trim.utf8ByteSize < 10))
        (containsAnyList (strToLower issue.body) bugKeywords &&
          !containsAnyList (strToLower issue.body) reproKeywords),
       (if issue.body.trim.utf8ByteSize < 50 then ["detailed description"] else []) ++
       (if issue.title.trim.utf8ByteSize < 10 then ["descriptive title"] else []) ++
       (if containsAnyList (strToLower issue.body) bugKeywords &&
            !containsAnyList (strToLower issue.body) reproKeywords then
          ["reproduction steps"] else [])) := by
  unfold basicQualityFloatRaw floatScoreOf
  by_cases h₁ : issue.body.trim.utf8ByteSize < 50 <;>
    by_cases h₂ : issue.title.trim.utf8ByteSize < 10 <;>
      by_cases h₃ : (containsAnyList (strToLower issue.body) bugKeywords &&
        !containsAnyList (strToLower issue.body) reproKeywords) = true <;>
    simp only [h₁, h₂, h₃, if_true, if_false, Bool.not_eq_true] at * <;>
    simp [h₁, h₂, h₃]

/-- Every reachable float64 score lies between the all-three-deductions
value 5404319552844594 * 2^-54 and 1. -/
lemma floatScoreOf_bounds (b₁ b₂ b₃ : Bool) :
    5404319552844594 * 2 ^ 6 ≤ floatScoreOf b₁ b₂ b₃ ∧
    floatScoreOf b₁ b₂ b₃ ≤ 2 ^ 60 := by
  cases b₁ <;> cases b₂ <;> cases b₃ <;> decide

/-- Lower bound of the pre-clamp float64 score. -/
lemma basicQualityFloatRaw_ge (issue : Issue) :
    5404319552844594 * 2 ^ 6 ≤ (basicQualityFloatRaw issue).1 := by
  rw [basicQualityFloatRaw_eq]
  exact (floatScoreOf_bounds _ _ _).1

/-- Upper bound of the pre-clamp float64 score. -/
lemma basicQualityFloatRaw_le (issue : Issue) :
    (basicQualityFloatRaw issue).1 ≤ 2 ^ 60 := by
  rw [basicQualityFloatRaw_eq]
  exact (floatScoreOf_bounds _ _ _).2

/-- C10 (amended): in the float64 arithmetic the program actually performs,
the basic quality score lies between 5404319552844594 * 2^-54 (the value of
1.0 - 0.3 - 0.2 - 0.2, approximately 0.29999999999999993 and strictly below
3/10) and 1.0; the clamp-to-zero branch remains unreachable, so the check
returns the raw chain unchanged, and at most three items are ever reported
missing. Everything here is stated on the scaled-integer grid where n
stands for n / 2^60. -/
theorem claim_C10_float_bounds (issue : Issue) :
    5404319552844594 * 2 ^ 6 ≤ (basicQualityFloatRaw issue).1 ∧
    (basicQualityFloatRaw issue).1 ≤ 2 ^ 60 ∧
    ¬((basicQualityFloatRaw issue).1 < 0) ∧
    basicQualityFloat issue = basicQualityFloatRaw issue ∧
    (basicQualityFloat issue).2.length ≤ 3 := by
  have hge := basicQualityFloatRaw_ge issue
  have hle := basicQualityFloatRaw_le issue
  have heq : basicQualityFloat issue = basicQualityFloatRaw issue := by
    unfold basicQualityFloat
    rcases hr : basicQualityFloatRaw issue with ⟨s, m⟩
    rw [hr] at hge
    simp only at hge ⊢
    rw [if_neg (by omega)]
  refine ⟨hge, hle, by omega, heq, ?_⟩
  rw [heq, basicQualityFloatRaw_eq]
  simp only
  split_ifs <;> simp

/-- Concrete evaluation of String.trim on the counterexample body: its aux
scans stop at the first step because neither end is whitespace. -/
lemma trimBug : "bug".trim = "bug" := by
  have h₁ : Substring.takeWhileAux "bug" "bug".endPos Char.isWhitespace { byteIdx := 0 } =
      { byteIdx := 0 } := by
    rw [Substring.takeWhileAux.eq_def]; decide
  have h₂ : Substring.takeRightWhileAux "bug" { byteIdx := 0 } Char.isWhitespace
      "bug".endPos = "bug".endPos := by
    rw [Substring.takeRightWhileAux.eq_def]; decide
  show (Substring.mk "bug"
      (Substring.takeWhileAux "bug" "bug".endPos Char.isWhitespace { byteIdx := 0 })
      (Substring.takeRightWhileAux "bug"
        (Substring.takeWhileAux "bug" "bug".endPos Char.isWhitespace { byteIdx := 0 })
        Char.isWhitespace "bug".endPos)).toString = "bug"
  rw [h₁, h₂]
  decide

/-- Concrete evaluation of String.trim on the counterexample title. -/
lemma trimHm : "hm".trim = "hm" := by
  have h₁ : Substring.takeWhileAux "hm" "hm".endPos Char.isWhitespace { byteIdx := 0 } =
      { byteIdx := 0 } := by
    rw [Substring.takeWhileAux.eq_def]; decide
  have h₂ : Substring.takeRightWhileAux "hm" { byteIdx := 0 } Char.isWhitespace
      "hm".endPos = "hm".endPos := by
    rw [Substring.takeRightWhileAux.eq_def]; decide
  show (Substring.mk "hm"
      (Substring.takeWhileAux "hm" "hm".endPos Char.isWhitespace { byteIdx := 0 })
      (Substring.takeRightWhileAux "hm"
        (Substring.takeWhileAux "hm" "hm".endPos Char.isWhitespace { byteIdx := 0 })
        Char.isWhitespace "hm".endPos)).toString = "hm"
  rw [h₁, h₂]
  decide

/-- C10 counterexample: on an issue missing all three items the program's
float64 score is 1.0 - 0.3 - 0.2 - 0.2 = 5404319552844594 * 2^-54,
approximately 0.29999999999999993 and strictly below 3/10 (yet above 0, so
the clamp does not mask it), while the exact-rational idealization of the
same chain gives exactly 3/10: the claimed interval from 0.3 to 1 holds for
the idealization but not for the program. -/
theorem claim_C10_counterexample :
    (basicQualityFloat lowQualityIssue).1 = 5404319552844594 * 2 ^ 6 ∧
    10 * (basicQualityFloat lowQualityIssue).1 < 3 * 2 ^ 60 ∧
    0 < (basicQualityFloat lowQualityIssue).1 ∧
    (basicQualityCheck lowQualityIssue).score = 3 / 10 ∧
    (basicQualityFloat lowQualityIssue).2 =
      ["detailed description", "descriptive title", "reproduction steps"] := by
  have hb₁ : lowQualityIssue.body.trim.utf8ByteSize < 50 := by
    rw [show lowQualityIssue.body = "bug" from rfl, trimBug]; decide
  have hb₂ : lowQualityIssue.title.trim.utf8ByteSize < 10 := by
    rw [show lowQualityIssue.title = "hm" from rfl, trimHm]; decide
  have hb₃ : (containsAnyList (strToLower lowQualityIssue.body) bugKeywords &&
      !containsAnyList (strToLower lowQualityIssue.body) reproKeywords) = true := by decide
  have hfr : basicQualityFloatRaw lowQualityIssue =
      (floatScoreOf true true true,
       ["detailed description"] ++ ["descriptive title"] ++ ["reproduction steps"]) := by
    rw [basicQualityFloatRaw_eq, decide_eq_true hb₁, decide_eq_true hb₂, hb₃,
      if_pos hb₁, if_pos hb₂]
    simp
  have hffl : basicQualityFloat lowQualityIssue =
      (5404319552844594 * 2 ^ 6,
       ["detailed description", "descriptive title", "reproduction steps"]) := by
    unfold basicQualityFloat
    rw [hfr]
    decide
  have hscore : (basicQualityCheck lowQualityIssue).score = 3 / 10 := by
    rw [basicQualityCheck_eq_raw]
    simp only
    rw [basicQualityRaw_eq]
    simp only [if_pos hb₁, if_pos hb₂, if_pos hb₃]
    norm_num
  rw [hffl]
  exact ⟨rfl, by decide, by decide, hscore, rfl⟩

/-- Characterization of the best-match scan of DuplicateChecker.Check,
generalized over the accumulator. -/
lemma foldl_bestStep_spec (p : SearchResult → Bool) (l : List SearchResult) :
    ∀ acc : Option SearchResult,
      (l.foldl (bestStep p) acc = none → acc = none ∧ ∀ r ∈ l, p r = false) ∧
      (∀ m, l.foldl (bestStep p) acc = some m →
        (acc = some m ∨ (m ∈ l ∧ p m = true)) ∧
        (∀ r ∈ l, p r = true → r.score ≤ m.score) ∧
        (∀ b, acc = some b → b.score ≤ m.score)) := by
  induction l with
  | nil =>
    intro acc
    constructor
    · intro h
      exact ⟨h, by simp⟩
    · intro m h
      simp only [List.foldl_nil] at h
      refine ⟨Or.inl h, by simp, ?_⟩
      intro b hb
      rw [h] at hb
      injection hb with hbm
      rw [hbm]
  | cons x t ih =>
    intro acc
    have step_none : bestStep p acc x = none → acc = none ∧ p x = false := by
      unfold bestStep
      split
      · intro h; cases h
      · rename_i hcond
        intro h
        refine ⟨h, ?_⟩
        subst h
        simpa using hcond
    constructor
    · intro h
      rw [List.foldl_cons] at h
      obtain ⟨hstep, ht⟩ := (ih (bestStep p acc x)).1 h
      obtain ⟨hacc, hpx⟩ := step_none hstep
      exact ⟨hacc, by
        intro r hr
        rcases List.mem_cons.mp hr with h | h
        · exact h ▸ hpx
        · exact ht r h⟩
    · intro m h
      rw [List.foldl_cons] at h
      obtain ⟨horigin, hmax, hacc⟩ := (ih (bestStep p acc x)).2 m h
      -- facts about the single step
      have step_cases : (bestStep p acc x = acc ∧
          (p x = true → ∃ b, acc = some b ∧ x.score ≤ b.score)) ∨
          (bestStep p acc x = some x ∧ p x = true ∧
            (∀ b, acc = some b → b.score ≤ x.score)) := by
        unfold bestStep
        split
        · rename_i hcond
          rcases acc with _ | b
          · right
            simp at hcond
            exact ⟨rfl, hcond, by intro b hb; cases hb⟩
          · right
            simp at hcond
            refine ⟨rfl, hcond.1, ?_⟩
            intro b' hb'
            cases hb'
            linarith [hcond.2]
        · rename_i hcond
          left
          refine ⟨rfl, ?_⟩
          intro hp
          rcases acc with _ | b
          · simp [hp] at hcond
          · refine ⟨b, rfl, ?_⟩
            simp [hp] at hcond
            linarith [hcond]
      rcases step_cases with ⟨heq, himp⟩ | ⟨heq, hpx, hble⟩
      · -- the step kept the accumulator
        rw [heq] at horigin hacc
        refine ⟨?_, ?_, hacc⟩
        · rcases horigin with h | h
          · exact Or.inl h
          · exact Or.inr ⟨List.mem_cons_of_mem _ h.1, h.2⟩
        · intro r hr hp
          rcases List.mem_cons.mp hr with h | h
          · subst h
            obtain ⟨b, hb, hle⟩ := himp hp
            exact le_trans hle (hacc b hb)
          · exact hmax r h hp
      · -- the step adopted x
        rw [heq] at horigin hacc
        refine ⟨?_, ?_, ?_⟩
        · rcases horigin with h | h
          · have hm : x = m := by injection h
            subst hm
            exact Or.inr ⟨List.mem_cons_self _ _, hpx⟩
          · exact Or.inr ⟨List.mem_cons_of_mem _ h.1, h.2⟩
        · intro r hr hp
          rcases List.mem_cons.mp hr with h | h
          · subst h
            exact hacc r rfl
          · exact hmax r h hp
        · intro b hb
          exact le_trans (hble b hb) (hacc x rfl)

/-- The best-match scan returns none exactly when nothing satisfies the
predicate. -/
lemma bestBy_eq_none (p : SearchResult → Bool) (l : List SearchResult) :
    bestBy p l = none ↔ ∀ r ∈ l, p r = false := by
  constructor
  · intro h
    exact ((foldl_bestStep_spec p l none).1 h).2
  · intro h
    unfold bestBy
    induction l with
    | nil => rfl
    | cons x t ih =>
      rw [List.foldl_cons]
      have hx : p x = false := h x (List.mem_cons_self _ _)
      have : bestStep p none x = none := by
        unfold bestStep
        simp [hx]
      rw [this]
      exact ih (fun r hr => h r (List.mem_cons_of_mem _ hr))

/-- The best-match scan returns a member satisfying the predicate that is
maximal among satisfying members. -/
lemma bestBy_spec (p : SearchResult → Bool) (l : List SearchResult) (m : SearchResult)
    (h : bestBy p l = some m) :
    m ∈ l ∧ p m = true ∧ ∀ r ∈ l, p r = true → r.score ≤ m.score := by
  obtain ⟨horigin, hmax, _⟩ := (foldl_bestStep_spec p l none).2 m h
  rcases horigin with h | h
  · cases h
  · exact ⟨h.1, h.2, hmax⟩

/-- C8: on a non-empty similarity list the duplicate checker selects the
highest-scoring open result, or the highest-scoring result overall when no
open result exists, and reports is-duplicate at the auto-close threshold
with should-close gated on confirmation; the empty list yields a negative
result of similarity zero. -/
theorem claim_C8_duplicate (autoCloseThreshold : ℚ) (requireConfirm : Bool)
    (l : List SearchResult) (hne : l ≠ []) :
    (duplicateCheck autoCloseThreshold requireConfirm [] =
      { isDuplicate := false, similarity := 0, original := none, shouldClose := false }) ∧
    ∃ best ∈ l,
      ((∃ r ∈ l, r.issue.state = "open") →
          best.issue.state = "open" ∧
          ∀ r ∈ l, r.issue.state = "open" → r.score ≤ best.score) ∧
      ((∀ r ∈ l, r.issue.state ≠ "open") → ∀ r ∈ l, r.score ≤ best.score) ∧
      duplicateCheck autoCloseThreshold requireConfirm l =
        { isDuplicate := decide (best.score ≥ autoCloseThreshold)
          similarity := best.score
          original := some best.issue
          shouldClose := decide (best.score ≥ autoCloseThreshold) && !requireConfirm } := by
  refine ⟨rfl, ?_⟩
  have hempty : l.isEmpty = false := by
    cases l
    · exact absurd rfl hne
    · rfl
  rcases hopen : bestBy (fun r => r.issue.state == "open") l with _ | b
  · -- no open result: fall back to the overall best
    have hallclosed := (bestBy_eq_none _ l).mp hopen
    rcases hall : bestBy (fun _ => true) l with _ | m
    · -- impossible on a non-empty list
      have := (bestBy_eq_none _ l).mp hall
      cases l with
      | nil => exact absurd rfl hne
      | cons x t => simpa using this x (List.mem_cons_self _ _)
    · obtain ⟨hmem, _, hmax⟩ := bestBy_spec _ l m hall
      refine ⟨m, hmem, ?_, ?_, ?_⟩
      · intro hex
        obtain ⟨r, hr, hstate⟩ := hex
        have hfalse := hallclosed r hr
        rw [hstate] at hfalse
        simp at hfalse
      · intro _
        intro r hr
        exact hmax r hr rfl
      · unfold duplicateCheck
        rw [hempty]
        simp only [Bool.false_eq_true, if_false]
        rw [hopen, hall]
  · obtain ⟨hmem, hpb, hmax⟩ := bestBy_spec _ l b hopen
    refine ⟨b, hmem, ?_, ?_, ?_⟩
    · intro _
      refine ⟨by simpa using hpb, ?_⟩
      intro r hr hstate
      exact hmax r hr (by simpa using hstate)
    · intro hnone
      exact absurd (by simpa using hpb) (hnone b hmem)
    · unfold duplicateCheck
      rw [hempty]
      simp only [Bool.false_eq_true, if_false]
      rw [hopen]

/-- Witness for C8 at a concrete two-element list: the list is non-empty and
the checker evaluates to the open result of score 0.9 even though the
closed result scores 0.97. -/
theorem claim_C8_witness :
    ([sampleClosedResult, sampleOpenResult] ≠ ([] : List SearchResult)) ∧
    (∃ best ∈ [sampleClosedResult, sampleOpenResult],
      ((∃ r ∈ [sampleClosedResult, sampleOpenResult], r.issue.state = "open") →
          best.issue.state = "open" ∧
          ∀ r ∈ [sampleClosedResult, sampleOpenResult],
            r.issue.state = "open" → r.score ≤ best.score) ∧
      ((∀ r ∈ [sampleClosedResult, sampleOpenResult], r.issue.state ≠ "open") →
          ∀ r ∈ [sampleClosedResult, sampleOpenResult], r.score ≤ best.score) ∧
      duplicateCheck (95/100) false [sampleClosedResult, sampleOpenResult] =
        { isDuplicate := decide (best.score ≥ 95/100)
          similarity := best.score
          original := some best.issue
          shouldClose := decide (best.score ≥ 95/100) && !false }) ∧
    duplicateCheck (95/100) false [sampleClosedResult, sampleOpenResult] =
      { isDuplicate := false, similarity := 9/10, original := some sampleOpenIssue,
        shouldClose := false } := by
  refine ⟨by simp, (claim_C8_duplicate (95/100) false _ (by simp)).2, ?_⟩
  simp [duplicateCheck, bestBy, bestStep, sampleClosedResult,
    sampleOpenResult, sampleClosedIssue, sampleOpenIssue]
  norm_num [DuplicateResult.mk.injEq]

/-- The SHA-1 digest always has 20 bytes. -/
lemma sha1_length (msg : List Nat) : (sha1 msg).length = 20 := by
  unfold sha1
  rcases (chunks64 (sha1Pad msg)).foldl sha1Chunk
    (0x67452301, 0xEFCDAB89, 0x98BADCFE, 0x10325476, 0xC3D2E1F0) with ⟨h0, h1, h2, h3, h4⟩
  simp [be32]

/-- The name-based UUID always has 16 bytes. -/
lemma uuidNewSHA1_length (space data : List Nat) : (uuidNewSHA1 space data).length = 16 := by
  unfold uuidNewSHA1 setVersion5Variant
  simp [sha1_length]

/-- Hex encoding yields two characters per byte. -/
lemma hexChars_length (bs : List Nat) : (hexChars bs).length = 2 * bs.length := by
  unfold hexChars
  induction bs with
  | nil => rfl
  | cons b t ih =>
    simp only [List.flatMap_cons, List.length_append, ih, byteHexChars]
    simp
    ring

/-- The rendered UUID of a 16-byte value has exactly 36 characters. -/
lemma uuidStringOfBytes_length (u : List Nat) (h : u.length = 16) :
    (uuidStringOfBytes u).length = 36 := by
  unfold uuidStringOfBytes
  show (_ : List Char).length = 36
  simp [hexChars_length, h]

/-- The lowercase hex digits. -/
def hexDigits : List Char := "0123456789abcdef".data

/-- Each hex digit character of a value below 16 is a lowercase hex digit. -/
lemma hexDigitChar_mem (n : Nat) (h : n < 16) : hexDigitChar n ∈ hexDigits := by
  interval_cases n <;> decide

/-- Both characters of a byte's hex encoding are lowercase hex digits. -/
lemma byteHexChars_mem (b : Nat) : ∀ c ∈ byteHexChars b, c ∈ hexDigits := by
  intro c hc
  unfold byteHexChars at hc
  simp only [List.mem_cons, List.not_mem_nil, or_false] at hc
  rcases hc with h | h
  · exact h ▸ hexDigitChar_mem _ (Nat.mod_lt _ (by norm_num))
  · exact h ▸ hexDigitChar_mem _ (Nat.mod_lt _ (by norm_num))

/-- Every character of a hex encoding is a lowercase hex digit. -/
lemma hexChars_mem (bs : List Nat) : ∀ c ∈ hexChars bs, c ∈ hexDigits := by
  intro c hc
  unfold hexChars at hc
  obtain ⟨b, _, hcb⟩ := List.mem_flatMap.mp hc
  exact byteHexChars_mem b c hcb

/-- C4: the issue UUID agrees with the spec-side UUIDv5 construction (URL
namespace, name org/repo#number, lowercase hex), is always exactly 36
characters long, and consists solely of hyphens and lowercase hex digits;
being a function of (org, repo, number), it is deterministic. -/
theorem claim_C4_issue_uuid (org repo : String) (number : Int) :
    IssueUUID org repo number = issueUUIDSpec org repo number ∧
    (IssueUUID org repo number).length = 36 ∧
    ∀ c ∈ (IssueUUID org repo number).data, c = '-' ∨ c ∈ hexDigits := by
  refine ⟨rfl, ?_, ?_⟩
  · unfold IssueUUID
    exact uuidStringOfBytes_length _ (uuidNewSHA1_length _ _)
  · unfold IssueUUID uuidStringOfBytes
    intro c hc
    simp only [String.data] at hc
    rcases List.mem_append.mp hc with h | h
    · rcases List.mem_append.mp h with h | h
      · rcases List.mem_append.mp h with h | h
        · rcases List.mem_append.mp h with h | h
          · exact Or.inr (hexChars_mem _ c h)
          · rcases List.mem_cons.mp h with h | h
            · exact Or.inl h
            · exact Or.inr (hexChars_mem _ c h)
        · rcases List.mem_cons.mp h with h | h
          · exact Or.inl h
          · exact Or.inr (hexChars_mem _ c h)
      · rcases List.mem_cons.mp h with h | h
        · exact Or.inl h
        · exact Or.inr (hexChars_mem _ c h)
    · rcases List.mem_cons.mp h with h | h
      · exact Or.inl h
      · exact Or.inr (hexChars_mem _ c h)

/-- Witness for C4 at a concrete identity, cross-checked against an
independent RFC 4122 implementation: the UUIDv5 of a/b#1 under the URL
namespace. -/
theorem claim_C4_witness :
    IssueUUID "a" "b" 1 = "c6dc6265-e5d8-5891-9628-173b04e12eba" ∧
    (IssueUUID "a" "b" 1).length = 36 ∧
    ('c' ∈ (IssueUUID "a" "b" 1).data → ('c' = '-' ∨ 'c' ∈ hexDigits)) := by
  refine ⟨by decide, (claim_C4_issue_uuid "a" "b" 1).2.1, ?_⟩
  intro hc
  exact (claim_C4_issue_uuid "a" "b" 1).2.2 'c' hc

/-- The Contains model finds every infix. -/
lemma listContains_of_infix (needle : List Char) :
    ∀ hay : List Char, needle <:+: hay → listContains hay needle = true := by
  intro hay
  induction hay with
  | nil =>
    intro h
    have hn : needle = [] := List.eq_nil_of_infix_nil h
    subst hn
    rfl
  | cons x hs ih =>
    intro h
    unfold listContains
    by_cases hp : needle.isPrefixOf (x :: hs) = true
    · simp [hp]
    · rcases h with ⟨s, t, he⟩
      cases s with
      | nil =>
        exfalso
        apply hp
        rw [List.isPrefixOf_iff_prefix]
        exact ⟨t, by simpa using he⟩
      | cons y s₂ =>
        have htail : needle <:+: hs := ⟨s₂, t, by
          have := he
          simp only [List.cons_append] at this
          exact (List.cons.injEq _ _ _ _).mp this |>.2⟩
        simp [hp, ih htail]

/-- A Contains test on strings succeeds when the needle occurs inside a
concatenation. -/
lemma strContains_append_middle (pre needle post : String) :
    strContains (pre ++ needle ++ post) needle = true := by
  unfold strContains
  apply listContains_of_infix
  refine ⟨pre.data, post.data, ?_⟩
  simp [String.data_append]

/-- Counterexample to C3: on a host state that already carries both the
pending-transfer label and a transfer marker comment, scheduling does not
treat the action as already-scheduled and does not skip: the executor
still posts a fresh marker comment and adds the label, and the manager
still adds the label. -/
theorem claim_C3_counterexample :
    hostHasPendingTransferLabel sampleScheduledHostState = true ∧
    hostHasTransferMarker sampleScheduledHostState = true ∧
    executorScheduleTransfer sampleScheduledHostState sampleOpenIssue "acme/api" none
      sampleDelayedCfg false 0 ≠ [] ∧
    managerScheduleTransfer sampleScheduledHostState sampleOpenIssue "acme/api" 0 24 =
      [HostCommand.addLabel "pending-transfer"] := by
  refine ⟨by decide, by decide, ?_, rfl⟩
  simp [executorScheduleTransfer]

/-- C3 as amended: the scheduling operations perform no already-scheduled
check at all. Their issued host commands are independent of the host
state, and they always schedule: the executor posts one marker comment
and adds the pending-transfer label, and the manager functions
unconditionally add their pending label. -/
theorem claim_C3_schedule_unconditional (host hostB : HostState) (issue : Issue)
    (target originalURL : String) (rule : Option TransferRule)
    (cfg : DelayedActionsConfig) (now commentID delayHours : Int) :
    executorScheduleTransfer host issue target rule cfg false now =
      executorScheduleTransfer hostB issue target rule cfg false now ∧
    (∃ body, strContains body "<!-- simili-pending-action:" = true ∧
      executorScheduleTransfer host issue target rule cfg false now =
        [HostCommand.postComment body, HostCommand.addLabel labelPendingTransfer]) ∧
    managerScheduleTransfer host issue target commentID delayHours =
      [HostCommand.addLabel labelPendingTransfer] ∧
    managerScheduleClose host issue originalURL commentID delayHours =
      [HostCommand.addLabel labelPendingClose] := by
  refine ⟨rfl, ?_, rfl, rfl⟩
  refine ⟨formatDelayedTransferComment target rule (now + cfg.delayHours * 3600) cfg
    { type := "transfer", org := issue.org, repo := issue.repo,
      issueNumber := issue.number, target := target, commentID := 0,
      scheduledAt := now, expiresAt := now + cfg.delayHours * 3600 }, ?_, rfl⟩
  unfold strContains
  apply listContains_of_infix
  unfold formatDelayedTransferComment
  refine List.IsInfix.trans
    (?_ : _ <:+: (formatPendingActionMetadata
      { type := "transfer", org := issue.org, repo := issue.repo,
        issueNumber := issue.number, target := target, commentID := 0,
        scheduledAt := now, expiresAt := now + cfg.delayHours * 3600 }).data) ?_
  · apply List.IsPrefix.isInfix
    unfold formatPendingActionMetadata
    have h₁ : ("<!-- simili-pending-action:" : String).data <+:
        ("<!-- simili-pending-action: " : String).data := by decide
    refine List.IsPrefix.trans h₁ ?_
    simp only [String.data_append]
    rw [List.append_assoc]
    exact List.prefix_append _ _
  · refine ⟨(delayedTransferCommentHead target rule (now + cfg.delayHours * 3600) cfg).data,
      delayedTransferCommentTail.data, ?_⟩
    simp [String.data_append]

/-- The descending insertion keeps the result a permutation of the new
element on top of the old list. -/
lemma insertDescByScore_perm (r : SearchResult) :
    ∀ sorted : List SearchResult, List.Perm (insertDescByScore sorted r) (r :: sorted) := by
  intro sorted
  induction sorted with
  | nil => rfl
  | cons x xs ih =>
    unfold insertDescByScore
    split
    · exact ((ih).cons x).trans (List.Perm.swap r x xs)
    · rfl

/-- The descending insertion preserves descending sortedness. -/
lemma insertDescByScore_sorted (r : SearchResult) :
    ∀ sorted : List SearchResult,
      List.Pairwise (fun a b => b.score ≤ a.score) sorted →
      List.Pairwise (fun a b => b.score ≤ a.score) (insertDescByScore sorted r) := by
  intro sorted
  induction sorted with
  | nil => intro _; simp [insertDescByScore]
  | cons x xs ih =>
    intro h
    rcases List.pairwise_cons.mp h with ⟨hx, hxs⟩
    unfold insertDescByScore
    split
    · rename_i hge
      refine List.pairwise_cons.mpr ⟨?_, ih hxs⟩
      intro y hy
      have hy₂ := (insertDescByScore_perm r xs).mem_iff.mp hy
      rcases List.mem_cons.mp hy₂ with h | h
      · exact h ▸ hge
      · exact hx y h
    · rename_i hlt
      push_neg at hlt
      refine List.pairwise_cons.mpr ⟨?_, h⟩
      intro y hy
      rcases List.mem_cons.mp hy with h | h
      · exact h ▸ le_of_lt hlt
      · exact le_trans (hx y h) (le_of_lt hlt)

/-- The full re-sort is a permutation of its input. -/
lemma sortDescByScore_perm (l : List SearchResult) : List.Perm (sortDescByScore l) l := by
  unfold sortDescByScore
  suffices h : ∀ acc : List SearchResult,
      List.Perm (l.foldl insertDescByScore acc) (acc ++ l) by
    simpa using h []
  induction l with
  | nil => intro acc; simp
  | cons x t ih =>
    intro acc
    rw [List.foldl_cons]
    refine (ih (insertDescByScore acc x)).trans ?_
    have h₁ : List.Perm (insertDescByScore acc x ++ t) ((x :: acc) ++ t) :=
      (insertDescByScore_perm x acc).append_right t
    refine h₁.trans ?_
    simp only [List.cons_append]
    exact (List.perm_middle).symm

/-- The full re-sort is sorted descending by adjusted score. -/
lemma sortDescByScore_sorted (l : List SearchResult) :
    List.Pairwise (fun a b => b.score ≤ a.score) (sortDescByScore l) := by
  unfold sortDescByScore
  suffices h : ∀ acc : List SearchResult,
      List.Pairwise (fun a b => b.score ≤ a.score) acc →
      List.Pairwise (fun a b => b.score ≤ a.score) (l.foldl insertDescByScore acc) by
    exact h [] (by simp)
  induction l with
  | nil => intro acc h; simpa using h
  | cons x t ih =>
    intro acc h
    rw [List.foldl_cons]
    exact ih _ (insertDescByScore_sorted x acc h)

/-- The returned search results are sorted descending by adjusted score. -/
lemma searchPostprocess_sorted (points : List ScoredPoint) (limit : Nat) (W : ℚ) :
    List.Pairwise (fun a b => b.score ≤ a.score) (searchPostprocess points limit W) := by
  unfold searchPostprocess
  exact (sortDescByScore_sorted _).sublist (List.take_sublist _ _)

/-- Fix of C5 (ranking at ties): a closed and an open result both present in
the returned list satisfy: the closed one is ranked strictly above the
open one whenever its weighted raw score strictly exceeds the open raw
score, and conversely being ranked above implies the weighted raw score is
at least the open raw score. At equal adjusted scores the fetch order
decides, so the claimed strict iff fails. The theorem also covers the
request shape (over-fetch 2L at floor T), the adjustment rule, and the
trim to the top L. -/
theorem claim_C5_search (collection : String) (points : List ScoredPoint) (L : Nat)
    (T W : ℚ) :
    (searchRequest collection L T).limit = 2 * L ∧
    (searchRequest collection L T).scoreThreshold = T ∧
    (searchPostprocess points L W).length ≤ L ∧
    (∀ r ∈ searchPostprocess points L W, ∃ p ∈ points, r = adjustScore W p) ∧
    (∀ p : ScoredPoint, (adjustScore W p).score =
      if p.issue.state = "closed" ∧ 0 < W then p.score * W else p.score) ∧
    (∀ i j : Fin (searchPostprocess points L W).length, i ≤ j →
      ((searchPostprocess points L W).get j).score ≤
        ((searchPostprocess points L W).get i).score) ∧
    (∀ (pc po : ScoredPoint) (i j : Fin (searchPostprocess points L W).length),
      pc.issue.state = "closed" → po.issue.state = "open" → 0 < W →
      (searchPostprocess points L W).get i = adjustScore W pc →
      (searchPostprocess points L W).get j = adjustScore W po →
      ((pc.score * W > po.score → i < j) ∧ (i < j → po.score ≤ pc.score * W))) := by
  have hsorted := searchPostprocess_sorted points L W
  have hget : ∀ i j : Fin (searchPostprocess points L W).length, i < j →
      ((searchPostprocess points L W).get j).score ≤
        ((searchPostprocess points L W).get i).score := by
    intro i j hij
    exact List.pairwise_iff_get.mp hsorted i j hij
  refine ⟨by simp [searchRequest, Nat.mul_comm], rfl, ?_, ?_, ?_, ?_, ?_⟩
  · unfold searchPostprocess
    simp
  · intro r hr
    unfold searchPostprocess at hr
    have hr₂ := List.mem_of_mem_take hr
    have hr₃ := (sortDescByScore_perm _).mem_iff.mp hr₂
    obtain ⟨p, hp, hpr⟩ := List.mem_map.mp hr₃
    exact ⟨p, hp, hpr.symm⟩
  · intro p
    unfold adjustScore
    by_cases h₁ : p.issue.state = "closed" <;> by_cases h₂ : 0 < W <;>
      simp [h₁, h₂]
  · intro i j hij
    rcases eq_or_lt_of_le hij with h | h
    · rw [h]
    · exact hget i j h
  · intro pc po i j hc ho hw hgi hgj
    have hscore_c : ((searchPostprocess points L W).get i).score = pc.score * W := by
      rw [hgi]
      unfold adjustScore
      simp [hc, hw]
    have hscore_o : ((searchPostprocess points L W).get j).score = po.score := by
      rw [hgj]
      unfold adjustScore
      have : po.issue.state ≠ "closed" := by rw [ho]; decide
      simp [this]
    constructor
    · intro hgt
      by_contra hnot
      push_neg at hnot
      rcases eq_or_lt_of_le hnot with h | h
      · -- the same entry cannot be both closed and open
        have : adjustScore W pc = adjustScore W po := by
          rw [← hgi, ← hgj, h]
        have hiss : pc.issue = po.issue := congrArg SearchResult.issue this
        rw [hiss, ho] at hc
        exact absurd hc (by decide)
      · have := hget j i h
        rw [hscore_c, hscore_o] at this
        exact absurd hgt (not_lt.mpr this)
    · intro hij
      have := hget i j hij
      rw [hscore_c, hscore_o] at this
      exact this

/-- Counterexample to the strict iff of C5: with weight 0.9, a closed result
of raw score 1 ties the open result of raw score 0.9 after adjustment and
stays ranked above it in fetch order, although the claimed strict
inequality fails. -/
theorem claim_C5_counterexample :
    ((9 : ℚ)/10 < 1) ∧
    searchPostprocess [tiedClosedPoint, tiedOpenPoint] 2 (9/10) =
      [{ issue := sampleClosedIssue, score := 9/10 },
       { issue := sampleOpenIssue, score := 9/10 }] ∧
    ¬((1 : ℚ) * (9/10) > 9/10) := by
  refine ⟨by norm_num, ?_, by norm_num⟩
  simp [searchPostprocess, sortDescByScore, insertDescByScore, adjustScore,
    tiedClosedPoint, tiedOpenPoint, sampleClosedIssue, sampleOpenIssue]

/-- Witness for C5 at a concrete fetch: the closed result of raw score 1 and
the open result of raw score 0.8 with weight 0.9 rank closed first. -/
theorem claim_C5_witness :
    (searchPostprocess [tiedClosedPoint, rankedOpenPoint] 2 (9/10)).length ≤ 2 ∧
    ((0 : Nat) < 1) := by
  have h := claim_C5_search "acme_issues" [tiedClosedPoint, rankedOpenPoint] 2 (82/100) (9/10)
  have hlen : (searchPostprocess [tiedClosedPoint, rankedOpenPoint] 2 (9/10)).length = 2 := by
    simp [searchPostprocess, sortDescByScore, insertDescByScore, adjustScore,
      tiedClosedPoint, rankedOpenPoint, sampleClosedIssue, sampleOpenIssue]
    try norm_num
  have h0 : (0 : Nat) < (searchPostprocess [tiedClosedPoint, rankedOpenPoint] 2 (9/10)).length := by
    rw [hlen]; norm_num
  have h1 : (1 : Nat) < (searchPostprocess [tiedClosedPoint, rankedOpenPoint] 2 (9/10)).length := by
    rw [hlen]; norm_num
  have hg0 : (searchPostprocess [tiedClosedPoint, rankedOpenPoint] 2 (9/10)).get ⟨0, h0⟩ =
      adjustScore (9/10) tiedClosedPoint := by
    simp [searchPostprocess, sortDescByScore, insertDescByScore, adjustScore,
      tiedClosedPoint, rankedOpenPoint, sampleClosedIssue, sampleOpenIssue]
    try norm_num
  have hg1 : (searchPostprocess [tiedClosedPoint, rankedOpenPoint] 2 (9/10)).get ⟨1, h1⟩ =
      adjustScore (9/10) rankedOpenPoint := by
    simp [searchPostprocess, sortDescByScore, insertDescByScore, adjustScore,
      tiedClosedPoint, rankedOpenPoint, sampleClosedIssue, sampleOpenIssue]
    try norm_num
  have hrank := (h.2.2.2.2.2.2 tiedClosedPoint rankedOpenPoint ⟨0, h0⟩ ⟨1, h1⟩
    rfl rfl (by norm_num) hg0 hg1).1 (by norm_num [tiedClosedPoint, rankedOpenPoint])
  exact ⟨h.2.2.1, hrank⟩

/-- The counting matcher agrees with the conjunction reading of the spec. -/
lemma matchesRule_eq_spec (issue : Issue) (rule : TransferRule) :
    matchesRule issue rule = matchesRuleSpec issue rule := by
  unfold matchesRule matchesRuleSpec
  dsimp only
  rw [show (rule.matchCond.author == "") = !(rule.matchCond.author != "") by simp [bne]]
  generalize rule.matchCond.labels.isEmpty = l
  generalize matchesAnyLabel issue.labels rule.matchCond.labels = ml
  generalize rule.matchCond.titleContains.isEmpty = t
  generalize ruleContainsAny issue.title rule.matchCond.titleContains = mt
  generalize rule.matchCond.bodyContains.isEmpty = b
  generalize ruleContainsAny issue.body rule.matchCond.bodyContains = mb
  generalize (rule.matchCond.author != "") = a
  generalize equalFold issue.author rule.matchCond.author = ma
  cases l <;> cases ml <;> cases t <;> cases mt <;> cases b <;> cases mb <;>
    cases a <;> cases ma <;> decide

/-- Inserting into the priority-sorted rule list yields a permutation of the
element on top of the list. -/
lemma insertByPriority_perm (r : TransferRule) :
    ∀ sorted : List TransferRule, List.Perm (insertByPriority sorted r) (r :: sorted) := by
  intro sorted
  induction sorted with
  | nil => rfl
  | cons x xs ih =>
    unfold insertByPriority
    split
    · exact ((ih).cons x).trans (List.Perm.swap r x xs)
    · rfl

/-- Inserting preserves ascending priority sortedness. -/
lemma insertByPriority_sorted (r : TransferRule) :
    ∀ sorted : List TransferRule,
      List.Pairwise (fun a b => a.priority ≤ b.priority) sorted →
      List.Pairwise (fun a b => a.priority ≤ b.priority) (insertByPriority sorted r) := by
  intro sorted
  induction sorted with
  | nil => intro _; simp [insertByPriority]
  | cons x xs ih =>
    intro h
    rcases List.pairwise_cons.mp h with ⟨hx, hxs⟩
    unfold insertByPriority
    split
    · rename_i hle
      refine List.pairwise_cons.mpr ⟨?_, ih hxs⟩
      intro y hy
      rcases List.mem_cons.mp ((insertByPriority_perm r xs).mem_iff.mp hy) with h | h
      · exact h ▸ hle
      · exact hx y h
    · rename_i hgt
      push_neg at hgt
      refine List.pairwise_cons.mpr ⟨?_, h⟩
      intro y hy
      rcases List.mem_cons.mp hy with h | h
      · exact h ▸ le_of_lt hgt
      · exact le_trans (le_of_lt hgt) (hx y h)

/-- The sorted rule list is sorted ascending by priority. -/
lemma sortRules_sorted (rules : List TransferRule) :
    List.Pairwise (fun a b => a.priority ≤ b.priority) (sortRules rules) := by
  unfold sortRules
  suffices h : ∀ acc : List TransferRule,
      List.Pairwise (fun a b => a.priority ≤ b.priority) acc →
      List.Pairwise (fun a b => a.priority ≤ b.priority)
        (rules.foldl insertByPriority acc) by
    exact h [] (by simp)
  induction rules with
  | nil => intro acc h; simpa using h
  | cons x t ih =>
    intro acc h
    rw [List.foldl_cons]
    exact ih _ (insertByPriority_sorted x acc h)

/-- Insertion sorting preserves the multiset of rules, generalized over the
accumulator. -/
lemma foldl_insertByPriority_perm :
    ∀ (l acc : List TransferRule),
      List.Perm (l.foldl insertByPriority acc) (acc ++ l) := by
  intro l
  induction l with
  | nil => intro acc; simp
  | cons x t ih =>
    intro acc
    rw [List.foldl_cons]
    refine (ih (insertByPriority acc x)).trans ?_
    refine ((insertByPriority_perm x acc).append_right t).trans ?_
    simpa using List.perm_middle.symm

/-- The concrete insertion sort of the pipeline model is one instance of the
sort.Slice contract. -/
lemma sortRules_sortSliceSpec (rules : List TransferRule) :
    sortSliceSpec rules (sortRules rules) :=
  ⟨by simpa [sortRules] using foldl_insertByPriority_perm rules [], sortRules_sorted rules⟩

/-- The first match of a priority-ordered list matches, belongs to the list,
and has minimal priority among all matching entries. -/
lemma find_sorted_min (issue : Issue) :
    ∀ l : List TransferRule,
      List.Pairwise (fun a b => a.priority ≤ b.priority) l →
      ∀ r, l.find? (fun q => matchesRule issue q) = some r →
        r ∈ l ∧ matchesRule issue r = true ∧
        ∀ x ∈ l, matchesRule issue x = true → r.priority ≤ x.priority := by
  intro l
  induction l with
  | nil => intro _ r h; simp at h
  | cons y t ih =>
    intro hp r h
    rcases List.pairwise_cons.mp hp with ⟨hy, ht⟩
    by_cases hm : matchesRule issue y = true
    · rw [List.find?_cons_of_pos _ (by simpa using hm)] at h
      injection h with h
      subst h
      refine ⟨List.mem_cons_self _ _, hm, ?_⟩
      intro x hx _
      rcases List.mem_cons.mp hx with hxy | hxt
      · subst hxy
        exact le_refl _
      · exact hy x hxt
    · rw [List.find?_cons_of_neg _ (by simpa using hm)] at h
      obtain ⟨hmem, hrm, hmin⟩ := ih ht r h
      refine ⟨List.mem_cons_of_mem _ hmem, hrm, ?_⟩
      intro x hx hmx
      rcases List.mem_cons.mp hx with hxy | hxt
      · rw [hxy] at hmx
        exact absurd hmx hm
      · exact hmin x hxt hmx

/-- C6 (amended): a rule matches exactly per the AND-of-groups,
OR-within-group, case-insensitive reading, and a rule with no condition
group never matches; for every stored order satisfying the sort.Slice
contract (a priority-ordered permutation of the input rules, with no
stability promise), the matcher returns none exactly when no input rule
matches, and otherwise returns an input rule that matches and whose
priority is minimal among all matching input rules. Which rule wins a
priority tie is decided by the order the unstable sort produced, not
necessarily the input order (claim_C6_counterexample). -/
theorem claim_C6_min_priority (rules sorted : List TransferRule) (issue : Issue)
    (rule : TransferRule) (hs : sortSliceSpec rules sorted) :
    matchesRule issue rule = matchesRuleSpec issue rule ∧
    (rule.matchCond.labels = [] → rule.matchCond.titleContains = [] →
      rule.matchCond.bodyContains = [] → rule.matchCond.author = "" →
      matchesRule issue rule = false) ∧
    (ruleMatchOn sorted issue = none ↔ ∀ x ∈ rules, matchesRule issue x = false) ∧
    (∀ r, ruleMatchOn sorted issue = some r →
      r ∈ rules ∧ matchesRule issue r = true ∧
      ∀ x ∈ rules, matchesRule issue x = true → r.priority ≤ x.priority) := by
  obtain ⟨hperm, hsort⟩ := hs
  refine ⟨matchesRule_eq_spec issue rule, ?_, ?_, ?_⟩
  · intro h₁ h₂ h₃ h₄
    rw [matchesRule_eq_spec]
    unfold matchesRuleSpec
    simp [h₁, h₂, h₃, h₄]
  · unfold ruleMatchOn
    constructor
    · intro hnone x hx
      have hh := List.find?_eq_none.mp hnone x (hperm.mem_iff.mpr hx)
      simpa using hh
    · intro hall
      refine List.find?_eq_none.mpr ?_
      intro x hx
      simp [hall x (hperm.mem_iff.mp hx)]
  · intro r hr
    unfold ruleMatchOn at hr
    obtain ⟨hmem, hrm, hmin⟩ := find_sorted_min issue sorted hsort r hr
    exact ⟨hperm.mem_iff.mp hmem, hrm, fun x hx hmx => hmin x (hperm.mem_iff.mpr hx) hmx⟩

/-- Witness for C6: the two scenario rules given in reverse priority order,
with the stored list sorted by priority; the contract holds concretely and
the matcher returns the priority-1 api rule, which matches and is
priority-minimal among the matching rules. -/
theorem claim_C6_min_priority_witness :
    sortSliceSpec [frontendRule, apiRule] [apiRule, frontendRule] ∧
    ruleMatchOn [apiRule, frontendRule] intakeIssue = some apiRule ∧
    matchesRule intakeIssue apiRule = true ∧
    (∀ x ∈ [frontendRule, apiRule], matchesRule intakeIssue x = true →
      apiRule.priority ≤ x.priority) ∧
    matchesRule intakeIssue frontendRule = true := by
  have hs : sortSliceSpec [frontendRule, apiRule] [apiRule, frontendRule] := by
    constructor
    · decide
    · decide
  have h := (claim_C6_min_priority [frontendRule, apiRule] [apiRule, frontendRule]
    intakeIssue apiRule hs).2.2.2 apiRule (by decide)
  exact ⟨hs, by decide, h.2.1, h.2.2, by decide⟩

/-- C6 counterexample: the tie-breaking clause of the original claim is not a
property of the program. On thirteen equal-priority rules that all match
the issue, the reversed input is a valid sort.Slice outcome (a
priority-ordered permutation); on it Match returns the last input rule,
while the input-order pick — the reading the spec states — returns the
first, a different rule of the same priority. -/
theorem claim_C6_counterexample :
    sortSliceSpec tiedRules tiedRules.reverse ∧
    ruleMatchOn tiedRules.reverse intakeIssue = some (tiedRule "t/r13") ∧
    rulePickSpec tiedRules intakeIssue = some (tiedRule "t/r01") ∧
    matchesRule intakeIssue (tiedRule "t/r01") = true ∧
    matchesRule intakeIssue (tiedRule "t/r13") = true ∧
    (tiedRule "t/r01").priority = (tiedRule "t/r13").priority ∧
    tiedRule "t/r01" ≠ tiedRule "t/r13" := by
  refine ⟨⟨List.reverse_perm tiedRules, by decide⟩, by decide, by decide, by decide,
    by decide, rfl, by decide⟩


/-- A stopped or failed run state is frozen by further steps. -/
lemma runStep_not_running (env : Env) (s : String × StepFn) (st : RunState)
    (h : st.outcome ≠ RunOutcome.running) : runStep env s st = st := by
  unfold runStep
  split
  · rename_i heq
    exact absurd heq h
  · rfl

/-- A frozen run state is unchanged by the rest of the pipeline. -/
lemma runSteps_frozen (env : Env) :
    ∀ (l : List (String × StepFn)) (st : RunState),
      st.outcome ≠ RunOutcome.running →
      l.foldl (fun st s => runStep env s st) st = st := by
  intro l
  induction l with
  | nil => intro st _; rfl
  | cons s t ih =>
    intro st h
    rw [List.foldl_cons, runStep_not_running env s st h]
    exact ih st h

/-- Either a step leaves the state untouched, or it runs on a running state:
then the new context and the appended events come from the step function. -/
lemma runStep_cases (env : Env) (s : String × StepFn) (st : RunState) :
    runStep env s st = st ∨
    ((runStep env s st).ctx = (s.2 st.ctx env).1 ∧
      (runStep env s st).events = st.events ++ (s.2 st.ctx env).2.1) := by
  by_cases h : st.outcome = RunOutcome.running
  · right
    unfold runStep
    rw [h]
    dsimp only
    cases hout : (s.2 st.ctx env).2.2 <;> simp
  · exact Or.inl (runStep_not_running env s st h)

/-- The gatekeeper emits no events and leaves the transfer target and triage
result untouched. -/
lemma gatekeeperRun_facts (ctx : PipeCtx) (env : Env) :
    (gatekeeperRun ctx env).2.1 = [] ∧
    (gatekeeperRun ctx env).1.transferTarget = ctx.transferTarget ∧
    (gatekeeperRun ctx env).1.triageResult = ctx.triageResult := by
  unfold gatekeeperRun
  rcases getRepoConfig ctx.config ctx.issue.org ctx.issue.repo with _ | rc
  · simp
  · dsimp only
    split
    · simp
    · rcases env.listComments with e | comments
      · simp
      · dsimp only
        split <;> simp

/-- The vector-store preparation step never touches the duplicate checker or
the index and preserves the transfer target and triage result. -/
lemma vectordbPrepRun_facts (ctx : PipeCtx) (env : Env) :
    Ev.duplicateCheck ∉ (vectordbPrepRun ctx env).2.1 ∧
    Ev.upsert ∉ (vectordbPrepRun ctx env).2.1 ∧
    (vectordbPrepRun ctx env).1.transferTarget = ctx.transferTarget ∧
    (vectordbPrepRun ctx env).1.triageResult = ctx.triageResult := by
  unfold vectordbPrepRun
  split
  · simp
  · rcases env.ensureCollection with e | u <;> simp

/-- The similarity search step never touches the duplicate checker or the
index and preserves the transfer target and triage result. -/
lemma similaritySearchRun_facts (ctx : PipeCtx) (env : Env) :
    Ev.duplicateCheck ∉ (similaritySearchRun ctx env).2.1 ∧
    Ev.upsert ∉ (similaritySearchRun ctx env).2.1 ∧
    (similaritySearchRun ctx env).1.transferTarget = ctx.transferTarget ∧
    (similaritySearchRun ctx env).1.triageResult = ctx.triageResult := by
  unfold similaritySearchRun
  split
  · simp
  · rcases env.findSimilar with e | similar
    · simp
    · dsimp only
      split <;> simp

/-- The transfer check emits no events and preserves the triage result. -/
lemma transferCheckRun_facts (ctx : PipeCtx) (env : Env) :
    (transferCheckRun ctx env).2.1 = [] ∧
    (transferCheckRun ctx env).1.triageResult = ctx.triageResult := by
  unfold transferCheckRun
  rcases getRepoConfig ctx.config ctx.issue.org ctx.issue.repo with _ | rc
  · simp
  · dsimp only
    split
    · simp
    · rcases ruleMatch rc.transferRules ctx.issue with _ | r
      · simp
      · dsimp only
        split
        · simp
        · split <;> simp

/-- The with-duplicates agent entry point emits at most the duplicate-check
event. -/
lemma triageWithSimilar_events (cfg : Config) (env : Env) (issue : Issue)
    (similar : List SearchResult) :
    (triageWithSimilar cfg env issue similar).2 = [] ∨
    (triageWithSimilar cfg env issue similar).2 = [Ev.duplicateCheck] := by
  unfold triageWithSimilar
  dsimp only
  split
  · split <;> simp
  · split <;> simp

/-- The without-duplicates agent entry point emits nothing. -/
lemma triageWithoutDuplicates_events (cfg : Config) (env : Env) (issue : Issue)
    (similar : List SearchResult) :
    (triageWithoutDuplicates cfg env issue similar).2 = [] := by
  unfold triageWithoutDuplicates
  rfl

/-- Recording the pending close action leaves the transfer target untouched. -/
lemma checkForPendingClose_tt (ctx : PipeCtx) (env : Env) (result : TriageResult) :
    (checkForPendingClose ctx env result).transferTarget = ctx.transferTarget := by
  unfold checkForPendingClose
  rcases result.duplicate with _ | d
  · rfl
  · dsimp only
    split
    · rcases d.original with _ | o <;> simp
    · rfl

/-- The triage step never upserts, preserves the transfer target, and, when
a transfer target is set, never invokes the duplicate checker. -/
lemma triageAnalysisRun_facts (ctx : PipeCtx) (env : Env) :
    Ev.upsert ∉ (triageAnalysisRun ctx env).2.1 ∧
    (triageAnalysisRun ctx env).1.transferTarget = ctx.transferTarget ∧
    (ctx.transferTarget ≠ "" → Ev.duplicateCheck ∉ (triageAnalysisRun ctx env).2.1) := by
  unfold triageAnalysisRun
  split
  · simp
  · dsimp only
    by_cases htt : (ctx.transferTarget != "") = true
    · rw [if_pos htt]
      refine ⟨?_, ?_, ?_⟩
      · rw [triageWithoutDuplicates_events]
        simp
      · simp [checkForPendingClose_tt]
      · intro _
        rw [triageWithoutDuplicates_events]
        simp
    · rw [if_neg htt]
      refine ⟨?_, ?_, ?_⟩
      · rcases triageWithSimilar_events ctx.config env ctx.issue ctx.similarIssues with h | h <;>
          rw [h] <;> simp
      · simp [checkForPendingClose_tt]
      · intro hne
        exfalso
        apply htt
        simpa using hne

/-- The response builder emits nothing and preserves the transfer target and
triage result. -/
lemma responseBuilderRun_facts (ctx : PipeCtx) (env : Env) :
    (responseBuilderRun ctx env).2.1 = [] ∧
    (responseBuilderRun ctx env).1.transferTarget = ctx.transferTarget ∧
    (responseBuilderRun ctx env).1.triageResult = ctx.triageResult := by
  unfold responseBuilderRun
  simp

/-- The transfer execution branch of the executor emits neither a
duplicate-check nor an upsert and preserves the transfer target and
triage result. -/
lemma executeTransferPart_facts (ctx : PipeCtx) (env : Env) :
    Ev.duplicateCheck ∉ (executeTransferPart ctx env).2 ∧
    Ev.upsert ∉ (executeTransferPart ctx env).2 ∧
    (executeTransferPart ctx env).1.transferTarget = ctx.transferTarget ∧
    (executeTransferPart ctx env).1.triageResult = ctx.triageResult := by
  unfold executeTransferPart
  split
  · rcases env.transferCall with e | u <;> simp
  · split
    · simp
    · rcases env.transferCall with e | u <;> simp

/-- The triage-action execution branch of the executor emits neither a
duplicate-check nor an upsert and preserves the transfer target and
triage result. -/
lemma executeTriagePart_facts (ctx : PipeCtx) (tr : TriageResult) :
    Ev.duplicateCheck ∉ (executeTriagePart ctx tr).2 ∧
    Ev.upsert ∉ (executeTriagePart ctx tr).2 ∧
    (executeTriagePart ctx tr).1.transferTarget = ctx.transferTarget ∧
    (executeTriagePart ctx tr).1.triageResult = ctx.triageResult := by
  unfold executeTriagePart
  split
  · split <;> simp
  · simp

/-- The comment-posting part emits neither a duplicate-check nor an upsert
and preserves the transfer target and triage result. -/
lemma postCommentPart_facts (ctx : PipeCtx) (env : Env) :
    Ev.duplicateCheck ∉ (postCommentPart ctx env).2 ∧
    Ev.upsert ∉ (postCommentPart ctx env).2 ∧
    (postCommentPart ctx env).1.transferTarget = ctx.transferTarget ∧
    (postCommentPart ctx env).1.triageResult = ctx.triageResult := by
  unfold postCommentPart
  split
  · rcases env.postCommentID with e | i <;> simp
  · simp

/-- The transfer part emits neither a duplicate-check nor an upsert and
preserves the transfer target and triage result. -/
lemma transferPart_facts (ctx : PipeCtx) (env : Env) :
    Ev.duplicateCheck ∉ (transferPart ctx env).2 ∧
    Ev.upsert ∉ (transferPart ctx env).2 ∧
    (transferPart ctx env).1.transferTarget = ctx.transferTarget ∧
    (transferPart ctx env).1.triageResult = ctx.triageResult := by
  unfold transferPart
  split
  · exact executeTransferPart_facts ctx env
  · simp

/-- The triage-action part emits neither a duplicate-check nor an upsert and
preserves the transfer target and triage result. -/
lemma triagePart_facts (ctx : PipeCtx) :
    Ev.duplicateCheck ∉ (triagePart ctx).2 ∧
    Ev.upsert ∉ (triagePart ctx).2 ∧
    (triagePart ctx).1.transferTarget = ctx.transferTarget ∧
    (triagePart ctx).1.triageResult = ctx.triageResult := by
  unfold triagePart
  rcases h : ctx.triageResult with _ | tr
  · simp [h]
  · dsimp only
    have f := executeTriagePart_facts ctx tr
    rw [h] at f
    exact f

/-- The action executor emits neither a duplicate-check nor an upsert and
preserves the transfer target and triage result. -/
lemma actionExecutorRun_facts (ctx : PipeCtx) (env : Env) :
    Ev.duplicateCheck ∉ (actionExecutorRun ctx env).2.1 ∧
    Ev.upsert ∉ (actionExecutorRun ctx env).2.1 ∧
    (actionExecutorRun ctx env).1.transferTarget = ctx.transferTarget ∧
    (actionExecutorRun ctx env).1.triageResult = ctx.triageResult := by
  unfold actionExecutorRun
  split
  · simp
  · rcases h1 : postCommentPart ctx env with ⟨ctx₁, evs₁⟩
    rcases h2 : transferPart ctx₁ env with ⟨ctx₂, evs₂⟩
    rcases h3 : triagePart ctx₂ with ⟨ctx₃, evs₃⟩
    have f1 := postCommentPart_facts ctx env
    rw [h1] at f1
    have f2 := transferPart_facts ctx₁ env
    rw [h2] at f2
    have f3 := triagePart_facts ctx₂
    rw [h3] at f3
    simp only [h1, h2, h3]
    refine ⟨?_, ?_, ?_, ?_⟩
    · simp only [List.mem_append]
      rintro ((h | h) | h)
      · exact f1.1 h
      · exact f2.1 h
      · exact f3.1 h
    · simp only [List.mem_append]
      rintro ((h | h) | h)
      · exact f1.2.1 h
      · exact f2.2.1 h
      · exact f3.2.1 h
    · rw [f3.2.2.1, f2.2.2.1, f1.2.2.1]
    · rw [f3.2.2.2, f2.2.2.2, f1.2.2.2]

/-- The indexer never invokes the duplicate checker, preserves the transfer
target and triage result, and emits nothing at all when a transfer target
is set or the issue will be closed as duplicate. -/
lemma indexerRun_facts (ctx : PipeCtx) (env : Env) :
    Ev.duplicateCheck ∉ (indexerRun ctx env).2.1 ∧
    (indexerRun ctx env).1.transferTarget = ctx.transferTarget ∧
    (indexerRun ctx env).1.triageResult = ctx.triageResult ∧
    (ctx.transferTarget ≠ "" → (indexerRun ctx env).2.1 = []) ∧
    (shouldCloseOf ctx.triageResult = true → (indexerRun ctx env).2.1 = []) := by
  unfold indexerRun
  by_cases h₁ : (ctx.transferTarget != "") = true
  · rw [if_pos h₁]
    simp
  · rw [if_neg h₁]
    by_cases h₂ : shouldCloseOf ctx.triageResult = true
    · rw [if_pos h₂]
      simp
    · rw [if_neg h₂]
      have hne : ctx.transferTarget = "" := by simpa using h₁
      split
      · simp [hne, h₂]
      · rcases env.indexCall with e | u <;> simp [hne, h₂]

/-- An event a step never emits can only have come from before the step. -/
lemma runStep_event_back (env : Env) (s : String × StepFn) (st : RunState) (e : Ev)
    (hstep : ∀ ctx, e ∉ (s.2 ctx env).2.1) :
    e ∈ (runStep env s st).events → e ∈ st.events := by
  rcases runStep_cases env s st with he | ⟨_, hev⟩
  · rw [he]
    exact id
  · rw [hev]
    intro h
    rcases List.mem_append.mp h with h | h
    · exact h
    · exact absurd h (hstep st.ctx)

/-- A step that preserves the transfer target preserves it through the
runner. -/
lemma runStep_tt (env : Env) (s : String × StepFn) (st : RunState)
    (hstep : ∀ ctx, (s.2 ctx env).1.transferTarget = ctx.transferTarget) :
    (runStep env s st).ctx.transferTarget = st.ctx.transferTarget := by
  rcases runStep_cases env s st with he | ⟨hctx, _⟩
  · rw [he]
  · rw [hctx]
    exact hstep st.ctx

/-- A step that preserves the triage result preserves it through the runner. -/
lemma runStep_tr (env : Env) (s : String × StepFn) (st : RunState)
    (hstep : ∀ ctx, (s.2 ctx env).1.triageResult = ctx.triageResult) :
    (runStep env s st).ctx.triageResult = st.ctx.triageResult := by
  rcases runStep_cases env s st with he | ⟨hctx, _⟩
  · rw [he]
  · rw [hctx]
    exact hstep st.ctx

/-- C1: in every default-order pipeline run that ends with a transfer target
set, the duplicate checker is never invoked and the indexer never
upserts; and in every run whose triage result carries should-close, the
indexer never upserts. -/
theorem claim_C1_transfer_preempts (cfg : Config) (issue : Issue) (env : Env) :
    ((runPipeline cfg issue env).ctx.transferTarget ≠ "" →
      Ev.duplicateCheck ∉ (runPipeline cfg issue env).events ∧
      Ev.upsert ∉ (runPipeline cfg issue env).events) ∧
    (∀ tr d, (runPipeline cfg issue env).ctx.triageResult = some tr →
      tr.duplicate = some d → d.shouldClose = true →
      Ev.upsert ∉ (runPipeline cfg issue env).events) := by
  have hrun : runPipeline cfg issue env =
      runStep env ("indexer", indexerRun)
        (runStep env ("action_executor", actionExecutorRun)
          (runStep env ("response_builder", responseBuilderRun)
            (runStep env ("triage", triageAnalysisRun)
              (runStep env ("transfer_check", transferCheckRun)
                (runStep env ("similarity_search", similaritySearchRun)
                  (runStep env ("vectordb_prep", vectordbPrepRun)
                    (runStep env ("gatekeeper", gatekeeperRun)
                      { ctx := initCtx cfg issue, events := [], stepsRun := [],
                        outcome := RunOutcome.running }))))))) := rfl
  rw [hrun]
  set st0 : RunState := { ctx := initCtx cfg issue, events := [], stepsRun := [], outcome := RunOutcome.running } with hst0
  set st1 := runStep env ("gatekeeper", gatekeeperRun) st0 with hst1
  set st2 := runStep env ("vectordb_prep", vectordbPrepRun) st1 with hst2
  set st3 := runStep env ("similarity_search", similaritySearchRun) st2 with hst3
  set st4 := runStep env ("transfer_check", transferCheckRun) st3 with hst4
  set st5 := runStep env ("triage", triageAnalysisRun) st4 with hst5
  set st6 := runStep env ("response_builder", responseBuilderRun) st5 with hst6
  set st7 := runStep env ("action_executor", actionExecutorRun) st6 with hst7
  set st8 := runStep env ("indexer", indexerRun) st7 with hst8
  -- no duplicate-check or upsert event exists before the triage stage
  have d0 : Ev.duplicateCheck ∉ st0.events ∧ Ev.upsert ∉ st0.events := by
    rw [hst0]
    simp
  have hgate_noev : ∀ ctx e, e ∉ (gatekeeperRun ctx env).2.1 := by
    intro ctx e
    rw [(gatekeeperRun_facts ctx env).1]
    simp
  have htc_noev : ∀ ctx e, e ∉ (transferCheckRun ctx env).2.1 := by
    intro ctx e
    rw [(transferCheckRun_facts ctx env).1]
    simp
  have hrb_noev : ∀ ctx e, e ∉ (responseBuilderRun ctx env).2.1 := by
    intro ctx e
    rw [(responseBuilderRun_facts ctx env).1]
    simp
  have d1 : Ev.duplicateCheck ∉ st1.events ∧ Ev.upsert ∉ st1.events :=
    ⟨fun h => d0.1 (runStep_event_back env _ st0 _ (fun ctx => hgate_noev ctx _) h),
     fun h => d0.2 (runStep_event_back env _ st0 _ (fun ctx => hgate_noev ctx _) h)⟩
  have d2 : Ev.duplicateCheck ∉ st2.events ∧ Ev.upsert ∉ st2.events :=
    ⟨fun h => d1.1 (runStep_event_back env _ st1 _
        (fun ctx => (vectordbPrepRun_facts ctx env).1) h),
     fun h => d1.2 (runStep_event_back env _ st1 _
        (fun ctx => (vectordbPrepRun_facts ctx env).2.1) h)⟩
  have d3 : Ev.duplicateCheck ∉ st3.events ∧ Ev.upsert ∉ st3.events :=
    ⟨fun h => d2.1 (runStep_event_back env _ st2 _
        (fun ctx => (similaritySearchRun_facts ctx env).1) h),
     fun h => d2.2 (runStep_event_back env _ st2 _
        (fun ctx => (similaritySearchRun_facts ctx env).2.1) h)⟩
  have d4 : Ev.duplicateCheck ∉ st4.events ∧ Ev.upsert ∉ st4.events :=
    ⟨fun h => d3.1 (runStep_event_back env _ st3 _ (fun ctx => htc_noev ctx _) h),
     fun h => d3.2 (runStep_event_back env _ st3 _ (fun ctx => htc_noev ctx _) h)⟩
  -- triage stage: the only duplicate-check source, conditional on the target
  have h5up : Ev.upsert ∉ st5.events :=
    fun h => d4.2 (runStep_event_back env _ st4 _
      (fun ctx => (triageAnalysisRun_facts ctx env).1) h)
  have h5tt : st5.ctx.transferTarget = st4.ctx.transferTarget := by
    rw [hst5]
    exact runStep_tt env _ st4 (fun ctx => (triageAnalysisRun_facts ctx env).2.1)
  have h5dup : Ev.duplicateCheck ∈ st5.events → st4.ctx.transferTarget = "" := by
    intro h
    rcases runStep_cases env ("triage", triageAnalysisRun) st4 with he | ⟨_, hev⟩
    · rw [hst5, he] at h
      exact absurd h d4.1
    · rw [hst5, hev] at h
      rcases List.mem_append.mp h with h | h
      · exact absurd h d4.1
      · by_contra hne
        exact (triageAnalysisRun_facts st4.ctx env).2.2 hne h
  -- response builder and action executor stages change nothing relevant
  have h6up : Ev.upsert ∉ st6.events :=
    fun h => h5up (runStep_event_back env _ st5 _ (fun ctx => hrb_noev ctx _) h)
  have h6dup : Ev.duplicateCheck ∈ st6.events → st4.ctx.transferTarget = "" :=
    fun h => h5dup (runStep_event_back env _ st5 _ (fun ctx => hrb_noev ctx _) h)
  have h6tt : st6.ctx.transferTarget = st5.ctx.transferTarget := by
    rw [hst6]
    exact runStep_tt env _ st5 (fun ctx => (responseBuilderRun_facts ctx env).2.1)
  have h6tr : st6.ctx.triageResult = st5.ctx.triageResult := by
    rw [hst6]
    exact runStep_tr env _ st5 (fun ctx => (responseBuilderRun_facts ctx env).2.2)
  have h7up : Ev.upsert ∉ st7.events :=
    fun h => h6up (runStep_event_back env _ st6 _
      (fun ctx => (actionExecutorRun_facts ctx env).2.1) h)
  have h7dup : Ev.duplicateCheck ∈ st7.events → st4.ctx.transferTarget = "" :=
    fun h => h6dup (runStep_event_back env _ st6 _
      (fun ctx => (actionExecutorRun_facts ctx env).1) h)
  have h7tt : st7.ctx.transferTarget = st6.ctx.transferTarget := by
    rw [hst7]
    exact runStep_tt env _ st6 (fun ctx => (actionExecutorRun_facts ctx env).2.2.1)
  have h7tr : st7.ctx.triageResult = st6.ctx.triageResult := by
    rw [hst7]
    exact runStep_tr env _ st6 (fun ctx => (actionExecutorRun_facts ctx env).2.2.2)
  -- indexer stage
  have h8dup : Ev.duplicateCheck ∈ st8.events → st4.ctx.transferTarget = "" :=
    fun h => h7dup (runStep_event_back env _ st7 _
      (fun ctx => (indexerRun_facts ctx env).1) h)
  have h8tt : st8.ctx.transferTarget = st7.ctx.transferTarget := by
    rw [hst8]
    exact runStep_tt env _ st7 (fun ctx => (indexerRun_facts ctx env).2.1)
  have h8tr : st8.ctx.triageResult = st7.ctx.triageResult := by
    rw [hst8]
    exact runStep_tr env _ st7 (fun ctx => (indexerRun_facts ctx env).2.2.1)
  have h8up : Ev.upsert ∈ st8.events →
      st7.ctx.transferTarget = "" ∧ shouldCloseOf st7.ctx.triageResult = false := by
    intro h
    rcases runStep_cases env ("indexer", indexerRun) st7 with he | ⟨_, hev⟩
    · rw [hst8, he] at h
      exact absurd h h7up
    · rw [hst8, hev] at h
      rcases List.mem_append.mp h with h | h
      · exact absurd h h7up
      · constructor
        · by_contra hne
          rw [(indexerRun_facts st7.ctx env).2.2.2.1 hne] at h
          exact absurd h (by simp)
        · by_contra hsc
          rw [Bool.not_eq_false] at hsc
          rw [(indexerRun_facts st7.ctx env).2.2.2.2 hsc] at h
          exact absurd h (by simp)
  -- conclude
  constructor
  · intro htt
    have htt4 : st4.ctx.transferTarget ≠ "" := by
      rw [← h5tt, ← h6tt, ← h7tt, ← h8tt]
      exact htt
    constructor
    · intro h
      exact htt4 (h8dup h)
    · intro h
      rcases h8up h with ⟨h7e, _⟩
      apply htt
      rw [h8tt, h7e]
  · intro tr d htr hd hsc h
    rcases h8up h with ⟨_, hscf⟩
    rw [← h8tr] at hscf
    rw [htr] at hscf
    unfold shouldCloseOf at hscf
    dsimp only at hscf
    rw [hd] at hscf
    dsimp only at hscf
    rw [hsc] at hscf
    cases hscf

/-- Witness for C1 at two concrete runs: the scenario S3 transfer run, whose
rule match sets the target so that neither a duplicate check nor an upsert
occurs, and a should-close duplicate run in which the indexer stays
silent. -/
theorem claim_C1_witness :
    ((runPipeline transferCfg intakeIssue plainEnv).ctx.transferTarget = "acme/api" ∧
      Ev.duplicateCheck ∉ (runPipeline transferCfg intakeIssue plainEnv).events ∧
      Ev.upsert ∉ (runPipeline transferCfg intakeIssue plainEnv).events) ∧
    (Ev.upsert ∉ (runPipeline enabledCfg sampleOpenIssue plainEnv).events) := by
  constructor
  · have h := (claim_C1_transfer_preempts transferCfg intakeIssue plainEnv).1 (by decide)
    exact ⟨by decide, h.1, h.2⟩
  · exact (claim_C1_transfer_preempts enabledCfg sampleOpenIssue plainEnv).2
      sampleTriageOutcome sampleDupResult (by decide) (by decide) rfl

/-- C7 as amended: provided the repository is present and enabled in the
configuration, a run on an issue with a fresh bot-signature comment stops
at the gatekeeper with skipped set and skip reason cooldown active,
running no later step, emitting no external call and posting no comment;
and when the host call for the comment listing fails, the run aborts with
the wrapped cooldown error. -/
theorem claim_C7_gatekeeper (cfg : Config) (issue : Issue) (env : Env)
    (rc : RepositoryConfig) (hrc : getRepoConfig cfg issue.org issue.repo = some rc)
    (hen : rc.enabled = true) :
    (∀ comments, env.listComments = Except.ok comments →
      (∃ c ∈ comments, strContains c.body botSignature = true ∧
        env.now - cfg.defaults.commentCooldownHours * 3600 < c.createdAt) →
      (runPipeline cfg issue env).ctx.resSkipped = true ∧
      (runPipeline cfg issue env).ctx.skipReason = "cooldown active" ∧
      (runPipeline cfg issue env).outcome = RunOutcome.stopped ∧
      (runPipeline cfg issue env).stepsRun = ["gatekeeper"] ∧
      (runPipeline cfg issue env).events = [] ∧
      Ev.postComment ∉ (runPipeline cfg issue env).events) ∧
    (∀ e, env.listComments = Except.error e →
      (runPipeline cfg issue env).outcome =
        RunOutcome.failed ("step gatekeeper failed: failed to check cooldown: " ++ e) ∧
      (runPipeline cfg issue env).events = []) := by
  constructor
  · intro comments hok hex
    have hskip : shouldSkipComment comments env.now cfg.defaults.commentCooldownHours
        = true := by
      obtain ⟨c, hc, hb, ht⟩ := hex
      unfold shouldSkipComment
      rw [List.any_eq_true]
      exact ⟨c, hc, by simp [hb, ht]⟩
    have hg : gatekeeperRun (initCtx cfg issue) env =
        ({ initCtx cfg issue with resSkipped := true, skipReason := "cooldown active" }, [],
          StepOutcome.skipPipeline) := by
      unfold gatekeeperRun
      simp only [initCtx]
      rw [hrc]
      dsimp only
      rw [hok]
      simp [hen, hskip, initCtx]
    have hstep1 : runStep env ("gatekeeper", gatekeeperRun)
        { ctx := initCtx cfg issue, events := [], stepsRun := [],
          outcome := RunOutcome.running } =
        { ctx := { initCtx cfg issue with resSkipped := true, skipReason := "cooldown active" }, events := [], stepsRun := ["gatekeeper"], outcome := RunOutcome.stopped } := by
      unfold runStep
      dsimp only
      rw [hg]
      rfl
    have hfinal : runPipeline cfg issue env =
        { ctx := { initCtx cfg issue with resSkipped := true, skipReason := "cooldown active" }, events := [], stepsRun := ["gatekeeper"], outcome := RunOutcome.stopped } := by
      unfold runPipeline pipelineSteps
      rw [List.foldl_cons, hstep1]
      exact runSteps_frozen env _ _ (by simp)
    rw [hfinal]
    refine ⟨rfl, rfl, rfl, rfl, rfl, by simp⟩
  · intro e herr
    have hg : gatekeeperRun (initCtx cfg issue) env =
        (initCtx cfg issue, [], StepOutcome.fail ("failed to check cooldown: " ++ e)) := by
      unfold gatekeeperRun
      simp only [initCtx]
      rw [hrc]
      dsimp only
      rw [herr]
      simp [hen, initCtx]
    have hstep1 : runStep env ("gatekeeper", gatekeeperRun)
        { ctx := initCtx cfg issue, events := [], stepsRun := [],
          outcome := RunOutcome.running } =
        { ctx := initCtx cfg issue, events := [], stepsRun := ["gatekeeper"],
          outcome := RunOutcome.failed
            ("step " ++ "gatekeeper" ++ " failed: " ++ ("failed to check cooldown: " ++ e)) } := by
      unfold runStep
      dsimp only
      rw [hg]
      rfl
    have hfinal : runPipeline cfg issue env =
        { ctx := initCtx cfg issue, events := [], stepsRun := ["gatekeeper"],
          outcome := RunOutcome.failed
            ("step " ++ "gatekeeper" ++ " failed: " ++ ("failed to check cooldown: " ++ e)) } := by
      unfold runPipeline pipelineSteps
      rw [List.foldl_cons, hstep1]
      exact runSteps_frozen env _ _ (by simp)
    rw [hfinal]
    refine ⟨?_, rfl⟩
    simp [← String.append_assoc]

/-- Counterexample to C7 as stated: when the repository is absent from the
configuration, the run stops with reason repository not enabled even
though a fresh bot-signature comment exists, so the universally quantified
claim about the cooldown reason fails. -/
theorem claim_C7_counterexample :
    shouldSkipComment [botComment] 1000 1 = true ∧
    (runPipeline noRepoCfg sampleOpenIssue cooldownEnv).ctx.skipReason =
      "repository not enabled" ∧
    (runPipeline noRepoCfg sampleOpenIssue cooldownEnv).ctx.skipReason ≠
      "cooldown active" := by
  refine ⟨by decide, by decide, by decide⟩

/-- Witness for C7 at concrete runs: with acme/web enabled, the cooldown run
stops at the gatekeeper with the cooldown reason, and the failing host
call aborts the run with the wrapped error. -/
theorem claim_C7_witness :
    ((runPipeline enabledCfg sampleOpenIssue cooldownEnv).ctx.resSkipped = true ∧
      (runPipeline enabledCfg sampleOpenIssue cooldownEnv).ctx.skipReason =
        "cooldown active" ∧
      (runPipeline enabledCfg sampleOpenIssue cooldownEnv).stepsRun = ["gatekeeper"] ∧
      Ev.postComment ∉ (runPipeline enabledCfg sampleOpenIssue cooldownEnv).events) ∧
    (runPipeline enabledCfg sampleOpenIssue failingEnv).outcome =
      RunOutcome.failed "step gatekeeper failed: failed to check cooldown: boom" := by
  constructor
  · have h := (claim_C7_gatekeeper enabledCfg sampleOpenIssue cooldownEnv acmeWebRepo
      (by decide) rfl).1 [botComment] rfl
      ⟨botComment, by simp, by decide, by decide⟩
    exact ⟨h.1, h.2.1, h.2.2.2.1, h.2.2.2.2.2⟩
  · have h := (claim_C7_gatekeeper enabledCfg sampleOpenIssue failingEnv acmeWebRepo
      (by decide) rfl).2 "boom" rfl
    rw [h.1]
    rfl

end Simili
